import Mathlib

/-! swtpm_chardev: start-up, argument handling and teardown

A shallow embedding of `src/swtpm/swtpm_chardev.c` (non-DEBUG build, LP64 data
model: `int` and `unsigned int` are 32 bits wide, `unsigned long` is 64 bits wide).

* Calls that leave the file (`open`, `fstat`, the `handle_*_options` handlers,
  `daemon`, `pidfile_write`, `tpmlib_start`, `install_sighandlers`, `mainLoop`, ...)
  are answered by an environment `Env`; every such call is also recorded, in program
  order, as an `Event`.
* `getopt_long` belongs to the C library.  The argument vector is represented by the
  sequence of results that the successive `getopt_long` calls deliver before `-1`:
  the option character together with `optarg`.
* C strings are NUL-free character sequences; the terminating NUL is the end of the list.
* `TPM_DEBUG` expands to nothing in a non-DEBUG build, so its arguments are not evaluated.
-/

namespace Swtpm

/-! ## Constants of the C library -/

def EXIT_SUCCESS : Int := 0

def EXIT_FAILURE : Int := 1

def STDERR_FILENO : Int := 2

/-- Largest `unsigned long` (64 bits). -/
def ULONG_MAX : Nat := 2 ^ 64 - 1

/-- Largest `unsigned int` (32 bits). -/
def UINT_MAX : Nat := 2 ^ 32 - 1

/-- Largest `int` (32 bits). -/
def INT_MAX : Nat := 2 ^ 31 - 1

/-- File type mask and file type codes of `st_mode` (`sys/stat.h`). -/
def S_IFMT : Nat := 0o170000

def S_IFSOCK : Nat := 0o140000

def S_IFLNK : Nat := 0o120000

def S_IFREG : Nat := 0o100000

def S_IFBLK : Nat := 0o060000

def S_IFDIR : Nat := 0o040000

def S_IFCHR : Nat := 0o020000

def S_IFIFO : Nat := 0o010000

def S_ISREG (m : Nat) : Bool := m &&& S_IFMT == S_IFREG

def S_ISDIR (m : Nat) : Bool := m &&& S_IFMT == S_IFDIR

def S_ISBLK (m : Nat) : Bool := m &&& S_IFMT == S_IFBLK

def S_ISLNK (m : Nat) : Bool := m &&& S_IFMT == S_IFLNK

def S_ISCHR (m : Nat) : Bool := m &&& S_IFMT == S_IFCHR

def S_ISFIFO (m : Nat) : Bool := m &&& S_IFMT == S_IFIFO

def S_ISSOCK (m : Nat) : Bool := m &&& S_IFMT == S_IFSOCK

/-- Conversion of an `unsigned long` to `unsigned int`: reduction modulo `2 ^ 32`. -/
def to_uint (v : Nat) : Nat := v % 2 ^ 32

/-- Conversion of an `unsigned long` to `int` (the assignment `mlp.fd = val`):
the low 32 bits read as a two's complement number. -/
def to_int (v : Nat) : Int :=
  if v % 2 ^ 32 < 2 ^ 31 then ((v % 2 ^ 32 : Nat) : Int) else ((v % 2 ^ 32 : Nat) : Int) - 2 ^ 32

/-- Conversion of an `int` to `TPM_RESULT` (`uint32_t`), as in `rc = mainLoop(...)`. -/
def to_TPM_RESULT (r : Int) : Nat := (r % 2 ^ 32).toNat

/-! ## `strtoul` with base 10 -/

/-- The white-space characters of `isspace` in the C locale. -/
def isspace (c : Char) : Bool :=
  c = ' ' || c = '\t' || c = '\n' || c = '\x0b' || c = '\x0c' || c = '\r'

def isdigit (c : Char) : Bool := '0' ≤ c && c ≤ '9'

/-- Value of a sequence of decimal digits. -/
def digits_value (ds : List Char) : Nat :=
  ds.foldl (fun acc c => 10 * acc + (c.toNat - '0'.toNat)) 0

/-- What one `strtoul` call leaves behind: the returned value, whether `errno` is
non-zero afterwards (it was cleared before the call), and the text at `end_ptr`. -/
structure strtoul_result where
  val : Nat
  errno : Bool
  end_ptr : List Char
deriving DecidableEq

/-- Optional sign of the subject sequence: whether it is a minus, and the text after it. -/
def strtoul_sign : List Char → Bool × List Char
  | '-' :: t => (true, t)
  | '+' :: t => (false, t)
  | s => (false, s)

/-- The C library's `strtoul(nptr, &end_ptr, 10)` (ISO C 7.22.1.4): leading white space
is skipped, one optional sign is read, then the longest run of decimal digits.  Without
any digit no conversion is performed: the value is 0 and `end_ptr` is `nptr`; POSIX lets
the library set `errno` to `EINVAL` then, which `einval` selects (glibc does not).
A value above `ULONG_MAX` gives `ULONG_MAX` and `ERANGE`; after a minus sign the value is
negated in `unsigned long`. -/
def strtoul (einval : Bool) (nptr : List Char) : strtoul_result :=
  let s := strtoul_sign (nptr.dropWhile isspace)
  let ds := s.2.takeWhile isdigit
  if ds = [] then ⟨0, einval, nptr⟩
  else if ULONG_MAX < digits_value ds then ⟨ULONG_MAX, true, s.2.dropWhile isdigit⟩
  else if s.1 then ⟨(ULONG_MAX + 1 - digits_value ds) % (ULONG_MAX + 1), false, s.2.dropWhile isdigit⟩
  else ⟨digits_value ds, false, s.2.dropWhile isdigit⟩

/-! ## Data of the program -/

inductive Stream
  | stdout
  | stderr
deriving DecidableEq

/-- The callback table `callbacks`: each entry is the name of the registered function,
`none` for `NULL`. -/
structure libtpms_callbacks where
  tpm_nvram_init : Option String
  tpm_nvram_loaddata : Option String
  tpm_nvram_storedata : Option String
  tpm_nvram_deletename : Option String
  tpm_io_init : Option String
deriving DecidableEq

def callbacks : libtpms_callbacks :=
  { tpm_nvram_init := some "SWTPM_NVRAM_Init"
    tpm_nvram_loaddata := some "SWTPM_NVRAM_LoadData"
    tpm_nvram_storedata := some "SWTPM_NVRAM_StoreData"
    tpm_nvram_deletename := some "SWTPM_NVRAM_DeleteName"
    tpm_io_init := none }

/-- The fields of `struct mainLoopParams` the program touches; `cc` is the control
channel handle stored by `handle_ctrlchannel_options` (`none` for `NULL`). -/
structure mainLoopParams where
  fd : Int
  flags : Nat
  cc : Option Nat
deriving DecidableEq

/-- One result of `getopt_long`: the option character it returns and `optarg`. -/
structure GetoptResult where
  opt : Char
  optarg : String
deriving DecidableEq

/-- Calls made by the program.  Of `fprintf` and `logprintf` the stream and the format
string are recorded, not the variadic arguments; `install_sighandlers` always receives
`notify_fd` and `sigterm_handler`; `strtoul`, `strerror` and `getpid` leave no record. -/
inductive Event
  | open_ (path : String)
  | fstat (fd : Int)
  | fprintf (file : Stream) (format : String)
  | logprintf (fd : Int) (format : String)
  | change_process_owner (user : String)
  | handle_log_options (spec : Option String)
  | handle_key_options (spec : Option String)
  | handle_pid_options (spec : Option String)
  | handle_tpmstate_options (spec : Option String)
  | handle_ctrlchannel_options (spec : Option String)
  | daemon (nochdir noclose : Int)
  | pidfile_write (pid : Int)
  | setvbuf_stdout_IONBF
  | tpmlib_start (cbs : libtpms_callbacks)
  | install_sighandlers
  | mainLoop (mlp : mainLoopParams) (notify_fd : Int) (cbs : libtpms_callbacks)
  | TPMLIB_Terminate
  | pidfile_remove
  | close (fd : Int)
  | write (fd : Int) (buf : String) (count : Nat)
deriving DecidableEq

/-- Answers of everything the program calls outside this file. -/
structure Env where
  /-- The macro `MAIN_LOOP_FLAG_TERMINATE` of `mainloop.h`. -/
  MAIN_LOOP_FLAG_TERMINATE : Nat
  /-- Whether `strtoul` sets `errno` when it performs no conversion. -/
  strtoul_einval : Bool
  /-- Result of `open(path, O_RDWR)`. -/
  open_ : String → Int
  /-- Result of `fstat(fd, &statbuf)`: `none` for a non-zero return, else `st_mode`. -/
  fstat : Int → Option Nat
  change_process_owner : String → Int
  handle_log_options : Option String → Int
  handle_key_options : Option String → Int
  handle_pid_options : Option String → Int
  handle_tpmstate_options : Option String → Int
  /-- Result of the handler and the handle it stores in `mlp.cc`. -/
  handle_ctrlchannel_options : Option String → Int × Option Nat
  /-- Result of `daemon(0, 0)`. -/
  daemon : Int
  getpid : Int
  pidfile_write : Int → Int
  /-- Result (`TPM_RESULT`) of `tpmlib_start(&callbacks, 0)`. -/
  tpmlib_start : Nat
  /-- Result of `install_sighandlers` and the contents of `notify_fd` it leaves. -/
  install_sighandlers : Int × (Int × Int)
  /-- Result of `mainLoop(&mlp, notify_fd[0], &callbacks)`. -/
  mainLoop : mainLoopParams → Int → Int

/-- Local variables of `swtpm_chardev_main` that live across the option loop. -/
structure Locals where
  daemonize : Bool
  mlp : mainLoopParams
  keydata : Option String
  logdata : Option String
  piddata : Option String
  tpmstatedata : Option String
  ctrlchdata : Option String
  runas : Option String
deriving DecidableEq

/-- The initialisers at the head of `swtpm_chardev_main`. -/
def Locals.init : Locals :=
  { daemonize := false
    mlp := { fd := -1, flags := 0, cc := none }
    keydata := none
    logdata := none
    piddata := none
    tpmstatedata := none
    ctrlchdata := none
    runas := none }

/-- How a run of `swtpm_chardev_main` ends: by `exit(status)` or by `return status`. -/
inductive Status
  | exited (status : Int)
  | returned (status : Int)
deriving DecidableEq

/-- Outcome of one pass through the body of the option loop. -/
inductive Step
  | next (l : Locals) (out : List Event)
  | exit (status : Int) (out : List Event)
deriving DecidableEq

/-- The format string of `usage`, lines 91-124. -/
def usage_format : String :=
  "Usage: %s %s [options]\n" ++
  "\n" ++
  "The following options are supported:\n" ++
  "\n" ++
  "-c|--chardev <device>\n" ++
  "                 : use the given character device\n" ++
  "-f|--fd <fd>     : use the given character device file descriptor\n" ++
  "-d|--daemon      : daemonize the TPM\n" ++
  "--ctrl type=[unixio|tcp][,path=<path>][,port=<port>][,fd=<filedescriptor]\n" ++
  "                 : TPM control channel using either UnixIO or TCP sockets;\n" ++
  "                   the path is only valid for Unixio channels; the port must\n" ++
  "                   be given in case the type is TCP; the TCP socket is bound\n" ++
  "                   to 127.0.0.1\n" ++
  "--log file=<path>|fd=<filedescriptor>\n" ++
  "                 : write the TPM's log into the given file rather than\n" ++
  "                   to the console; provide '-' for path to avoid logging\n" ++
  "--key file=<path>[,mode=aes-cbc][,format=hex|binary][,remove=[true|false]]\n" ++
  "                 : use an AES key for the encryption of the TPM's state\n" ++
  "                   files; use the given mode for the block encryption;\n" ++
  "                   the key is to be provided as a hex string or in binary\n" ++
  "                   format; the keyfile can be automatically removed using\n" ++
  "                   the remove parameter\n" ++
  "--key pwdfile=<path>[,mode=aes-cbc][,remove=[true|false]]\n" ++
  "                 : provide a passphrase in a file; the AES key will be\n" ++
  "                   derived from this passphrase\n" ++
  "--pid file=<path>\n" ++
  "                 : write the process ID into the given file\n" ++
  "--tpmstate dir=<dir>\n" ++
  "                 : set the directory where the TPM's state will be written\n" ++
  "                   into; the TPM_PATH environment variable can be used\n" ++
  "                   instead\n" ++
  "-r|--runas <user>: change to the given user\n" ++
  "-h|--help        : display this help screen and terminate\n" ++
  "\n"

/-- The function `usage`: one `fprintf` of the help text to `file`. -/
def usage (file : Stream) : List Event :=
  [Event.fprintf file usage_format]

/-- The `switch (opt)` of the option loop, lines 169-247. -/
def loopBody (env : Env) (l : Locals) (g : GetoptResult) : Step :=
  match g.opt with
  | 'd' => .next { l with daemonize := true } []
  | 'c' =>
    if 0 ≤ l.mlp.fd then .next l []
    else if env.open_ g.optarg < 0 then
      .exit 1 [.open_ g.optarg, .fprintf .stderr "Cannot open %s: %s\n"]
    else
      .next { l with mlp := { l.mlp with fd := env.open_ g.optarg } } [.open_ g.optarg]
  | 'f' =>
    if 0 ≤ l.mlp.fd then .next l []
    else
      let r := strtoul env.strtoul_einval g.optarg.data
      if r.val ≠ to_uint r.val ∨ r.errno = true ∨ r.end_ptr ≠ [] then
        .exit 1 [.fprintf .stderr "Cannot parse character device file descriptor.\n"]
      else
        match env.fstat (to_int r.val) with
        | none =>
          .exit 1 [.fstat (to_int r.val), .fprintf .stderr "Cannot stat file descriptor: %s\n"]
        | some st_mode =>
          if S_ISREG st_mode || S_ISDIR st_mode || S_ISBLK st_mode || S_ISLNK st_mode then
            .exit 1 [.fstat (to_int r.val),
                     .fprintf .stderr "Given file descriptor type is not supported.\n"]
          else
            .next { l with mlp := { l.mlp with fd := to_int r.val,
                                               flags := l.mlp.flags ||| env.MAIN_LOOP_FLAG_TERMINATE } }
              [.fstat (to_int r.val)]
  | 'k' => .next { l with keydata := some g.optarg } []
  | 'l' => .next { l with logdata := some g.optarg } []
  | 'P' => .next { l with piddata := some g.optarg } []
  | 's' => .next { l with tpmstatedata := some g.optarg } []
  | 'C' => .next { l with ctrlchdata := some g.optarg } []
  | 'h' => .exit EXIT_SUCCESS (usage .stdout)
  | 'r' => .next { l with runas := some g.optarg } []
  | _ => .exit EXIT_FAILURE (usage .stderr)

/-- The calls `evs` followed by the step `s`. -/
def Step.after (evs : List Event) : Step → Step
  | .next l out => .next l (evs ++ out)
  | .exit status out => .exit status (evs ++ out)

/-- The `while (TRUE)` loop, lines 163-248, over the results of `getopt_long`; the end of
the list is the result `-1`, on which the loop is left. -/
def optionLoop (env : Env) (l : Locals) : List GetoptResult → Step
  | [] => .next l []
  | g :: gs =>
    match loopBody env l g with
    | .exit status out => .exit status out
    | .next l1 out => (optionLoop env l1 gs).after out

/-- Result of a run of `swtpm_chardev_main`: how it ends, the calls it made in program
order, and the contents of the static array `notify_fd` at the end. -/
structure Run where
  status : Status
  out : List Event
  notify_fd : Int × Int
deriving DecidableEq

/-- The calls `evs` followed by the run `r`. -/
def Run.after (evs : List Event) (r : Run) : Run :=
  { r with out := evs ++ r.out }

/-- From the label `error_no_tpm` to the end, lines 321-336. -/
def error_no_tpm (rc : Nat) (notify_fd : Int × Int) : Run :=
  { status := .returned (if rc = 0 then EXIT_SUCCESS else EXIT_FAILURE)
    out := [.pidfile_remove, .close notify_fd.1, .close notify_fd.2]
    notify_fd := (-1, -1) }

/-- From the label `error_no_sighandlers` to the end, lines 318-336. -/
def error_no_sighandlers (rc : Nat) (notify_fd : Int × Int) : Run :=
  (error_no_tpm rc notify_fd).after [.TPMLIB_Terminate]

/-- Lines 310-336: start of the TPM, installation of the signal handlers, the main loop
and the teardown.  `notify_fd` is `{-1, -1}` until `install_sighandlers` fills it. -/
def run_tpm (env : Env) (mlp : mainLoopParams) : Run :=
  if env.tpmlib_start ≠ 0 then
    (error_no_tpm env.tpmlib_start (-1, -1)).after [.tpmlib_start callbacks]
  else if env.install_sighandlers.1 < 0 then
    (error_no_sighandlers env.tpmlib_start env.install_sighandlers.2).after
      [.tpmlib_start callbacks, .install_sighandlers]
  else
    (error_no_sighandlers (to_TPM_RESULT (env.mainLoop mlp env.install_sighandlers.2.1))
        env.install_sighandlers.2).after
      [.tpmlib_start callbacks, .install_sighandlers,
       .mainLoop mlp env.install_sighandlers.2.1 callbacks]

/-- A `return EXIT_FAILURE` before the signal handlers exist. -/
def return_failure (out : List Event) : Run :=
  { status := .returned EXIT_FAILURE, out := out, notify_fd := (-1, -1) }

/-- Lines 275-336: `pidfile_write(getpid())` and `setvbuf`, then the rest of the run. -/
def write_pidfile (env : Env) (mlp : mainLoopParams) : Run :=
  if env.pidfile_write env.getpid < 0 then
    return_failure [.pidfile_write env.getpid]
  else
    (run_tpm env mlp).after [.pidfile_write env.getpid, .setvbuf_stdout_IONBF]

/-- Lines 268-336: optional `daemon(0, 0)`, then the rest of the run. -/
def daemonize_step (env : Env) (l : Locals) (mlp : mainLoopParams) : Run :=
  if l.daemonize then
    if env.daemon ≠ 0 then
      return_failure [.daemon 0 0, .logprintf STDERR_FILENO "Error: Could not daemonize.\n"]
    else
      (write_pidfile env mlp).after [.daemon 0 0]
  else
    write_pidfile env mlp

/-- Lines 261-266: the short-circuit chain of configuration handlers, then the rest. -/
def handle_options (env : Env) (l : Locals) : Run :=
  if env.handle_log_options l.logdata < 0 then
    return_failure [.handle_log_options l.logdata]
  else if env.handle_key_options l.keydata < 0 then
    return_failure [.handle_log_options l.logdata, .handle_key_options l.keydata]
  else if env.handle_pid_options l.piddata < 0 then
    return_failure [.handle_log_options l.logdata, .handle_key_options l.keydata,
                    .handle_pid_options l.piddata]
  else if env.handle_tpmstate_options l.tpmstatedata < 0 then
    return_failure [.handle_log_options l.logdata, .handle_key_options l.keydata,
                    .handle_pid_options l.piddata, .handle_tpmstate_options l.tpmstatedata]
  else if (env.handle_ctrlchannel_options l.ctrlchdata).1 < 0 then
    return_failure [.handle_log_options l.logdata, .handle_key_options l.keydata,
                    .handle_pid_options l.piddata, .handle_tpmstate_options l.tpmstatedata,
                    .handle_ctrlchannel_options l.ctrlchdata]
  else
    (daemonize_step env l
        { l.mlp with cc := (env.handle_ctrlchannel_options l.ctrlchdata).2 }).after
      [.handle_log_options l.logdata, .handle_key_options l.keydata,
       .handle_pid_options l.piddata, .handle_tpmstate_options l.tpmstatedata,
       .handle_ctrlchannel_options l.ctrlchdata]

/-- Lines 250-336: everything after the option loop. -/
def after_options (env : Env) (l : Locals) : Run :=
  if l.mlp.fd < 0 then
    return_failure
      [.logprintf STDERR_FILENO "Error: Missing character device or file descriptor\n"]
  else
    match l.runas with
    | some user =>
      if env.change_process_owner user < 0 then
        return_failure [.change_process_owner user]
      else
        (handle_options env l).after [.change_process_owner user]
    | none => handle_options env l

/-- The function `swtpm_chardev_main`, run on the results `argv` of `getopt_long`. -/
def swtpm_chardev_main (env : Env) (argv : List GetoptResult) : Run :=
  match optionLoop env Locals.init argv with
  | .exit status out => { status := .exited status, out := out, notify_fd := (-1, -1) }
  | .next l out => (after_options env l).after out

/-! ## The signal handler -/

/-- The static variables `notify_fd` and `mainloop_terminate`. -/
structure Globals where
  notify_fd : Int × Int
  mainloop_terminate : Bool
deriving DecidableEq

/-- The function `sigterm_handler`, lines 78-86; `written` is what
`write(notify_fd[1], "T", 1)` returns.  The result is the new state and the calls made. -/
def sigterm_handler (written : Int) (g : Globals) : Globals × List Event :=
  ({ g with mainloop_terminate := true },
   if written < 0 then
     [.write g.notify_fd.2 "T" 1,
      .logprintf STDERR_FILENO "Error: sigterm notification failed: %s\n"]
   else
     [.write g.notify_fd.2 "T" 1])

/-- Delivery of one termination signal per element of `ws`, each with the result of its
`write`; the calls of all handler runs are collected in order. -/
def deliver_signals : List Int → Globals → Globals × List Event
  | [], g => (g, [])
  | w :: ws, g =>
    ((deliver_signals ws (sigterm_handler w g).1).1,
     (sigterm_handler w g).2 ++ (deliver_signals ws (sigterm_handler w g).1).2)

/-! ## Definitions used to state the properties -/

/-- The check of line 192 passes for the text `s` and the assignment `mlp.fd = val` of
line 196 stores `n`. -/
@[reducible] def fd_parses (einval : Bool) (s : String) (n : Int) : Prop :=
  (strtoul einval s.data).val = to_uint (strtoul einval s.data).val ∧
  (strtoul einval s.data).errno = false ∧
  (strtoul einval s.data).end_ptr = [] ∧
  to_int (strtoul einval s.data).val = n

/-- The texts that get past the check of line 192, described by their shape, with the
value `n` that line 196 stores for them.  Some of them get past only because the check
does not look at what was converted; those are singled out by `slip_fd_text`. -/
def passing_fd_text (einval : Bool) (s : List Char) (n : Int) : Prop :=
  (s = [] ∧ einval = false ∧ n = 0) ∨
  ∃ ws sign ds, s = ws ++ sign ++ ds ∧ (∀ c ∈ ws, isspace c = true) ∧
    (sign = [] ∨ sign = ['+'] ∨ sign = ['-']) ∧
    ds ≠ [] ∧ (∀ c ∈ ds, isdigit c = true) ∧ digits_value ds ≤ ULONG_MAX ∧
    (if sign = ['-'] then (ULONG_MAX + 1 - digits_value ds) % (ULONG_MAX + 1)
      else digits_value ds) ≤ UINT_MAX ∧
    n = to_int (if sign = ['-'] then (ULONG_MAX + 1 - digits_value ds) % (ULONG_MAX + 1)
      else digits_value ds)

/-- The descriptor texts of the specification, widened by what `strtoul` takes by design:
optional leading white space, an optional `+`, then one or more decimal digits and nothing
else, with a value `n` that fits a non-negative `int`. -/
def plain_fd_text (s : List Char) (n : Int) : Prop :=
  ∃ ws sign ds, s = ws ++ sign ++ ds ∧ (∀ c ∈ ws, isspace c = true) ∧
    (sign = [] ∨ sign = ['+']) ∧
    ds ≠ [] ∧ (∀ c ∈ ds, isdigit c = true) ∧ digits_value ds ≤ INT_MAX ∧
    n = (digits_value ds : Int)

/-- The texts the check of line 192 lets through although they are no descriptor text:
the empty text (no conversion is performed, which the check does not test), a minus sign
in front of digits whose negation modulo `2 ^ 64` fits `unsigned int` (such as `-0` or
`-18446744073709551609`), and a value between `INT_MAX + 1` and `UINT_MAX` (the check
compares with `unsigned int`, the descriptor is an `int`). -/
def slip_fd_text (s : List Char) : Prop :=
  s = [] ∨
  (∃ ws ds, s = ws ++ ['-'] ++ ds ∧ (∀ c ∈ ws, isspace c = true) ∧
    ds ≠ [] ∧ (∀ c ∈ ds, isdigit c = true) ∧ digits_value ds ≤ ULONG_MAX ∧
    (ULONG_MAX + 1 - digits_value ds) % (ULONG_MAX + 1) ≤ UINT_MAX) ∨
  (∃ ws sign ds, s = ws ++ sign ++ ds ∧ (∀ c ∈ ws, isspace c = true) ∧
    (sign = [] ∨ sign = ['+']) ∧
    ds ≠ [] ∧ (∀ c ∈ ds, isdigit c = true) ∧
    INT_MAX < digits_value ds ∧ digits_value ds ≤ UINT_MAX)

/-- The option characters the `switch` has a case for. -/
def recognized_options : List Char := ['d', 'c', 'f', 'k', 'l', 'P', 's', 'C', 'h', 'r']

/-- The file type test of lines 206-207. -/
def wrong_file_type (st_mode : Nat) : Bool :=
  S_ISREG st_mode || S_ISDIR st_mode || S_ISBLK st_mode || S_ISLNK st_mode

/-- Calls made while the options are read: `open`, `fstat` and the `fprintf` reports. -/
def Event.is_option_call : Event → Bool
  | .open_ _ => true
  | .fstat _ => true
  | .fprintf _ _ => true
  | _ => false

/-- Calls made by a step. -/
def Step.out : Step → List Event
  | .next _ out => out
  | .exit _ out => out

/-- Options that only store a value: `-d`, `--key`, `--log`, `--pid`, `--tpmstate`,
`--ctrl` and `-r`. -/
def plain_options : List Char := ['d', 'k', 'l', 'P', 's', 'C', 'r']

/-- Options that select the transport: `-c` and `-f`. -/
def is_transport_option (g : GetoptResult) : Bool := g.opt = 'c' || g.opt = 'f'

def Event.is_write : Event → Bool
  | .write _ _ _ => true
  | _ => false

/-- The report `sigterm_handler` makes after a failed `write`. -/
def sigterm_report : Event :=
  .logprintf STDERR_FILENO "Error: sigterm notification failed: %s\n"

/-- Every step between the option loop and `tpmlib_start` succeeds: a transport is
selected and neither the owner change, nor a handler, nor `daemon`, nor `pidfile_write`
fails. -/
def startup_succeeds (env : Env) (l : Locals) : Prop :=
  0 ≤ l.mlp.fd ∧
  (∀ user, l.runas = some user → ¬ env.change_process_owner user < 0) ∧
  ¬ env.handle_log_options l.logdata < 0 ∧
  ¬ env.handle_key_options l.keydata < 0 ∧
  ¬ env.handle_pid_options l.piddata < 0 ∧
  ¬ env.handle_tpmstate_options l.tpmstatedata < 0 ∧
  ¬ (env.handle_ctrlchannel_options l.ctrlchdata).1 < 0 ∧
  (l.daemonize = true → env.daemon = 0) ∧
  ¬ env.pidfile_write env.getpid < 0

/-- The calls of a start-up that gets as far as `tpmlib_start`. -/
def startup_calls (env : Env) (l : Locals) : List Event :=
  (match l.runas with
    | some user => [.change_process_owner user]
    | none => []) ++
  [.handle_log_options l.logdata, .handle_key_options l.keydata,
   .handle_pid_options l.piddata, .handle_tpmstate_options l.tpmstatedata,
   .handle_ctrlchannel_options l.ctrlchdata] ++
  (if l.daemonize then [.daemon 0 0] else []) ++
  [.pidfile_write env.getpid, .setvbuf_stdout_IONBF]

/-- The `mainLoopParams` after `handle_ctrlchannel_options` has stored the channel. -/
def final_mlp (env : Env) (l : Locals) : mainLoopParams :=
  { l.mlp with cc := (env.handle_ctrlchannel_options l.ctrlchdata).2 }

/-- Calls that can occur between the option loop and a successful `pidfile_write`. -/
def Event.is_early_call : Event → Bool
  | .logprintf _ _ => true
  | .change_process_owner _ => true
  | .handle_log_options _ => true
  | .handle_key_options _ => true
  | .handle_pid_options _ => true
  | .handle_tpmstate_options _ => true
  | .handle_ctrlchannel_options _ => true
  | .daemon _ _ => true
  | .pidfile_write _ => true
  | .setvbuf_stdout_IONBF => true
  | _ => false

/-- A run that ended with `return EXIT_FAILURE` before `pidfile_write` succeeded. -/
def early_failure (env : Env) (r : Run) : Prop :=
  r.status = .returned EXIT_FAILURE ∧ r.notify_fd = (-1, -1) ∧
  (∀ e ∈ r.out, e.is_early_call = true) ∧
  (∀ pid, Event.pidfile_write pid ∈ r.out →
    pid = env.getpid ∧ env.pidfile_write env.getpid < 0)

/-- The calls of the teardown: `TPMLIB_Terminate`, `pidfile_remove` and `close`. -/
def Event.is_teardown_call : Event → Bool
  | .TPMLIB_Terminate => true
  | .pidfile_remove => true
  | .close _ => true
  | _ => false

/-- The contents of `notify_fd` when the teardown starts: what `install_sighandlers`
left there if it was called, the initial `{-1, -1}` otherwise. -/
def notify_fd_at_teardown (env : Env) : Int × Int :=
  if env.tpmlib_start = 0 then env.install_sighandlers.2 else (-1, -1)

/-- The teardown as the specification words it: `TPMLIB_Terminate` if and only if
`tpmlib_start` succeeded, then `pidfile_remove`, then `close` of `notify_fd[0]`, then
`close` of `notify_fd[1]`. -/
def teardown_calls (env : Env) : List Event :=
  (if env.tpmlib_start = 0 then [Event.TPMLIB_Terminate] else []) ++
  [.pidfile_remove, .close (notify_fd_at_teardown env).1, .close (notify_fd_at_teardown env).2]

/-- The start-up calls the specification lists. -/
def Event.is_startup_call : Event → Bool
  | .change_process_owner _ => true
  | .handle_log_options _ => true
  | .handle_key_options _ => true
  | .handle_pid_options _ => true
  | .handle_tpmstate_options _ => true
  | .handle_ctrlchannel_options _ => true
  | .daemon _ _ => true
  | .pidfile_write _ => true
  | .tpmlib_start _ => true
  | .install_sighandlers => true
  | .mainLoop _ _ _ => true
  | _ => false

/-- The fixed start-up sequence as the specification lists it, for the values the option
loop stored in `l`; each call is paired with whether the environment makes it fail. -/
def startup_plan (env : Env) (l : Locals) : List (Event × Bool) :=
  (match l.runas with
    | some user => [(Event.change_process_owner user, decide (env.change_process_owner user < 0))]
    | none => []) ++
  [(.handle_log_options l.logdata, decide (env.handle_log_options l.logdata < 0)),
   (.handle_key_options l.keydata, decide (env.handle_key_options l.keydata < 0)),
   (.handle_pid_options l.piddata, decide (env.handle_pid_options l.piddata < 0)),
   (.handle_tpmstate_options l.tpmstatedata,
     decide (env.handle_tpmstate_options l.tpmstatedata < 0)),
   (.handle_ctrlchannel_options l.ctrlchdata,
     decide ((env.handle_ctrlchannel_options l.ctrlchdata).1 < 0))] ++
  (if l.daemonize then [(Event.daemon 0 0, decide (env.daemon ≠ 0))] else []) ++
  [(.pidfile_write env.getpid, decide (env.pidfile_write env.getpid < 0)),
   (.tpmlib_start callbacks, decide (env.tpmlib_start ≠ 0)),
   (.install_sighandlers, decide (env.install_sighandlers.1 < 0)),
   (.mainLoop (final_mlp env l) env.install_sighandlers.2.1 callbacks,
     decide (to_TPM_RESULT (env.mainLoop (final_mlp env l) env.install_sighandlers.2.1) ≠ 0))]

/-- The calls of a plan up to and including the first one that fails. -/
def through_first_failure : List (Event × Bool) → List Event
  | [] => []
  | (e, failed) :: rest => if failed then [e] else e :: through_first_failure rest

/-- The argument of the last occurrence of option `c`, `none` if there is none. -/
def last_optarg (c : Char) (argv : List GetoptResult) : Option String :=
  argv.foldl (fun acc g => if g.opt = c then some g.optarg else acc) none

/-- The last four entries of the plan. -/
def tpm_plan (env : Env) (mlp : mainLoopParams) : List (Event × Bool) :=
  [(.pidfile_write env.getpid, decide (env.pidfile_write env.getpid < 0)),
   (.tpmlib_start callbacks, decide (env.tpmlib_start ≠ 0)),
   (.install_sighandlers, decide (env.install_sighandlers.1 < 0)),
   (.mainLoop mlp env.install_sighandlers.2.1 callbacks,
     decide (to_TPM_RESULT (env.mainLoop mlp env.install_sighandlers.2.1) ≠ 0))]

/-- The plan from the configuration handlers on. -/
def options_plan (env : Env) (l : Locals) : List (Event × Bool) :=
  [(.handle_log_options l.logdata, decide (env.handle_log_options l.logdata < 0)),
   (.handle_key_options l.keydata, decide (env.handle_key_options l.keydata < 0)),
   (.handle_pid_options l.piddata, decide (env.handle_pid_options l.piddata < 0)),
   (.handle_tpmstate_options l.tpmstatedata,
     decide (env.handle_tpmstate_options l.tpmstatedata < 0)),
   (.handle_ctrlchannel_options l.ctrlchdata,
     decide ((env.handle_ctrlchannel_options l.ctrlchdata).1 < 0))] ++
  ((if l.daemonize then [(Event.daemon 0 0, decide (env.daemon ≠ 0))] else []) ++
    tpm_plan env (final_mlp env l))

/-- The values a pass of the loop body stores. -/
def stored_by (l l1 : Locals) (g : GetoptResult) : Prop :=
  l1.runas = (if g.opt = 'r' then some g.optarg else l.runas) ∧
  l1.logdata = (if g.opt = 'l' then some g.optarg else l.logdata) ∧
  l1.keydata = (if g.opt = 'k' then some g.optarg else l.keydata) ∧
  l1.piddata = (if g.opt = 'P' then some g.optarg else l.piddata) ∧
  l1.tpmstatedata = (if g.opt = 's' then some g.optarg else l.tpmstatedata) ∧
  l1.ctrlchdata = (if g.opt = 'C' then some g.optarg else l.ctrlchdata) ∧
  l1.daemonize = (l.daemonize || decide (g.opt = 'd'))

/-- A sample environment: `/dev/tpm0` is the only path that opens (as descriptor 3),
descriptor 4 is a regular file and every other non-negative descriptor a character
device, the pipe of the signal handlers is `(5, 6)`, and every other call succeeds. -/
def Env.sample : Env :=
  { MAIN_LOOP_FLAG_TERMINATE := 1
    strtoul_einval := false
    open_ := fun path => if path = "/dev/tpm0" then 3 else -1
    fstat := fun fd => if fd = 4 then some 0o100644 else if 0 ≤ fd then some 0o020600 else none
    change_process_owner := fun _ => 0
    handle_log_options := fun _ => 0
    handle_key_options := fun _ => 0
    handle_pid_options := fun _ => 0
    handle_tpmstate_options := fun _ => 0
    handle_ctrlchannel_options := fun _ => (0, none)
    daemon := 0
    getpid := 4242
    pidfile_write := fun _ => 0
    tpmlib_start := 0
    install_sighandlers := (0, (5, 6))
    mainLoop := fun _ _ => 0 }

/-! ## The option loop: general facts -/

theorem Step.after_nil (s : Step) : s.after [] = s := by
  cases s <;> simp [Step.after]

theorem Step.after_after (a b : List Event) (s : Step) :
    (s.after b).after a = s.after (a ++ b) := by
  cases s <;> simp [Step.after]

theorem Step.out_after (a : List Event) (s : Step) : (s.after a).out = a ++ s.out := by
  cases s <;> simp [Step.after, Step.out]

theorem optionLoop_nil (env : Env) (l : Locals) : optionLoop env l [] = .next l [] := rfl

theorem optionLoop_cons (env : Env) (l : Locals) (g : GetoptResult) (gs : List GetoptResult) :
    optionLoop env l (g :: gs) =
      match loopBody env l g with
      | .exit status out => .exit status out
      | .next l1 out => (optionLoop env l1 gs).after out := rfl

theorem loopBody_out_option_calls (env : Env) (l : Locals) (g : GetoptResult) :
    ∀ e ∈ (loopBody env l g).out, e.is_option_call = true := by
  unfold loopBody
  split
  case h_3 =>
    by_cases h1 : 0 ≤ l.mlp.fd
    · simp [h1, Step.out]
    · by_cases h2 : (strtoul env.strtoul_einval g.optarg.data).val ≠
          to_uint (strtoul env.strtoul_einval g.optarg.data).val ∨
          (strtoul env.strtoul_einval g.optarg.data).errno = true ∨
          (strtoul env.strtoul_einval g.optarg.data).end_ptr ≠ []
      · simp only [h1, h2, if_true, if_false, Step.out]
        simp [Event.is_option_call]
      · simp only [h1, h2, if_true, if_false]
        cases env.fstat (to_int (strtoul env.strtoul_einval g.optarg.data).val) with
        | none => simp [Step.out, Event.is_option_call]
        | some m =>
          by_cases h3 : (S_ISREG m || S_ISDIR m || S_ISBLK m || S_ISLNK m) = true
          · simp only [h3, if_true, Step.out]
            simp [Event.is_option_call]
          · simp only [h3, if_false, Step.out]
            simp [Event.is_option_call]
  all_goals (try split_ifs) <;> simp [Step.out, usage, Event.is_option_call]

theorem optionLoop_out_option_calls (env : Env) (argv : List GetoptResult) :
    ∀ (l : Locals), ∀ e ∈ (optionLoop env l argv).out, e.is_option_call = true := by
  induction argv with
  | nil => intro l; simp [optionLoop, Step.out]
  | cons g gs ih =>
    intro l e he
    have hb := loopBody_out_option_calls env l g
    unfold optionLoop at he
    cases hlb : loopBody env l g with
    | exit status out =>
      rw [hlb] at he hb
      exact hb e he
    | next l1 out =>
      rw [hlb] at he hb
      simp only [Step.out_after, List.mem_append] at he
      rcases he with he | he
      · exact hb e he
      · exact ih l1 e he

theorem optionLoop_append_next (env : Env) (xs ys : List GetoptResult) :
    ∀ (l l1 : Locals) (out : List Event), optionLoop env l xs = .next l1 out →
      optionLoop env l (xs ++ ys) = (optionLoop env l1 ys).after out := by
  induction xs with
  | nil =>
    intro l l1 out h
    simp only [optionLoop_nil, Step.next.injEq] at h
    obtain ⟨rfl, rfl⟩ := h
    simp [Step.after_nil]
  | cons g gs ih =>
    intro l l1 out h
    rw [List.cons_append, optionLoop_cons]
    rw [optionLoop_cons] at h
    cases hlb : loopBody env l g with
    | exit status o => rw [hlb] at h; simp at h
    | next l2 o =>
      rw [hlb] at h
      simp only at h ⊢
      cases hrest : optionLoop env l2 gs with
      | exit status o1 => rw [hrest] at h; simp [Step.after] at h
      | next l3 o1 =>
        rw [hrest] at h
        simp only [Step.after, Step.next.injEq] at h
        obtain ⟨rfl, rfl⟩ := h
        rw [ih l2 l3 o1 hrest, Step.after_after]

theorem loopBody_plain (env : Env) (l : Locals) (g : GetoptResult)
    (h : g.opt ∈ plain_options) :
    ∃ l1, loopBody env l g = .next l1 [] ∧ l1.mlp = l.mlp := by
  simp only [plain_options, List.mem_cons, List.mem_singleton, List.not_mem_nil, or_false] at h
  rcases h with h | h | h | h | h | h | h <;> simp [loopBody, h]

theorem loopBody_selected (env : Env) (l : Locals) (g : GetoptResult)
    (hfd : 0 ≤ l.mlp.fd) (h : g.opt = 'c' ∨ g.opt = 'f') :
    loopBody env l g = .next l [] := by
  rcases h with h | h <;> simp [loopBody, h, hfd]

theorem optionLoop_plain (env : Env) (argv : List GetoptResult)
    (h : ∀ g ∈ argv, g.opt ∈ plain_options) :
    ∀ l : Locals, ∃ l1, optionLoop env l argv = .next l1 [] ∧ l1.mlp = l.mlp := by
  induction argv with
  | nil => intro l; exact ⟨l, rfl, rfl⟩
  | cons g gs ih =>
    intro l
    obtain ⟨l1, h1, hm1⟩ := loopBody_plain env l g (h g (List.mem_cons_self _ _))
    obtain ⟨l2, h2, hm2⟩ := ih (fun x hx => h x (List.mem_cons_of_mem _ hx)) l1
    refine ⟨l2, ?_, hm2.trans hm1⟩
    rw [optionLoop_cons, h1]
    simp [h2, Step.after]

theorem loopBody_mlp_of_not_transport (env : Env) (l l1 : Locals) (g : GetoptResult)
    (out : List Event) (hg : is_transport_option g = false)
    (h : loopBody env l g = .next l1 out) : l1.mlp = l.mlp := by
  simp only [is_transport_option, Bool.or_eq_false_iff, decide_eq_false_iff_not] at hg
  unfold loopBody at h
  split at h <;> simp_all
  all_goals (obtain ⟨rfl, -⟩ := h; rfl)

theorem optionLoop_drop_transport (env : Env) (argv : List GetoptResult) :
    ∀ l : Locals, 0 ≤ l.mlp.fd →
      optionLoop env l argv = optionLoop env l (argv.filter (fun g => !is_transport_option g)) := by
  induction argv with
  | nil => intro l _; rfl
  | cons g gs ih =>
    intro l hfd
    cases hg : is_transport_option g with
    | true =>
      have hsel : loopBody env l g = .next l [] := by
        apply loopBody_selected env l g hfd
        simpa [is_transport_option] using hg
      rw [List.filter_cons_of_neg (by simp [hg]), optionLoop_cons, hsel]
      simp only [Step.after_nil]
      exact ih l hfd
    | false =>
      rw [List.filter_cons_of_pos (by simp [hg]), optionLoop_cons, optionLoop_cons]
      cases hlb : loopBody env l g with
      | exit status out => rfl
      | next l1 out =>
        have hm := loopBody_mlp_of_not_transport env l l1 g out hg hlb
        simp only
        rw [ih l1 (by rw [hm]; exact hfd)]

theorem loopBody_f_unparsable (env : Env) (l : Locals) (s : String) (hfirst : l.mlp.fd < 0)
    (h : ¬ ∃ n, fd_parses env.strtoul_einval s n) :
    loopBody env l ⟨'f', s⟩ =
      .exit 1 [.fprintf .stderr "Cannot parse character device file descriptor.\n"] := by
  have h1 : ¬ 0 ≤ l.mlp.fd := not_le.mpr hfirst
  have h2 : (strtoul env.strtoul_einval s.data).val ≠
      to_uint (strtoul env.strtoul_einval s.data).val ∨
      (strtoul env.strtoul_einval s.data).errno = true ∨
      (strtoul env.strtoul_einval s.data).end_ptr ≠ [] := by
    by_contra hc
    simp only [not_or, ne_eq, not_not, Bool.not_eq_true] at hc
    exact h ⟨_, hc.1, hc.2.1, hc.2.2, rfl⟩
  simp only [loopBody, h1, h2, if_true, if_false]

theorem loopBody_f_parsed (env : Env) (l : Locals) (s : String) (n : Int)
    (hfirst : l.mlp.fd < 0) (h : fd_parses env.strtoul_einval s n) :
    loopBody env l ⟨'f', s⟩ =
      match env.fstat n with
      | none => .exit 1 [.fstat n, .fprintf .stderr "Cannot stat file descriptor: %s\n"]
      | some st_mode =>
        if wrong_file_type st_mode then
          .exit 1 [.fstat n, .fprintf .stderr "Given file descriptor type is not supported.\n"]
        else
          .next { l with mlp := { l.mlp with fd := n,
                                             flags := l.mlp.flags ||| env.MAIN_LOOP_FLAG_TERMINATE } }
            [.fstat n] := by
  have h1 : ¬ 0 ≤ l.mlp.fd := not_le.mpr hfirst
  obtain ⟨ha, hb, hc, hd⟩ := h
  have h2 : ¬ ((strtoul env.strtoul_einval s.data).val ≠
      to_uint (strtoul env.strtoul_einval s.data).val ∨
      (strtoul env.strtoul_einval s.data).errno = true ∨
      (strtoul env.strtoul_einval s.data).end_ptr ≠ []) := by
    simp [← ha, hb, hc]
  simp only [loopBody, h1, h2, if_false, hd, wrong_file_type]

theorem loopBody_f_parsed_out (env : Env) (l : Locals) (s : String) (n : Int)
    (hfirst : l.mlp.fd < 0) (h : fd_parses env.strtoul_einval s n) :
    ∃ t, (loopBody env l ⟨'f', s⟩).out = .fstat n :: t := by
  rw [loopBody_f_parsed env l s n hfirst h]
  cases env.fstat n with
  | none => exact ⟨_, rfl⟩
  | some st_mode =>
    by_cases hw : wrong_file_type st_mode = true
    · simp only [hw, if_true]; exact ⟨_, rfl⟩
    · simp only [hw, if_false]; exact ⟨_, rfl⟩

theorem main_of_optionLoop_next (env : Env) (argv : List GetoptResult) (l : Locals)
    (o : List Event) (h : optionLoop env Locals.init argv = .next l o) :
    swtpm_chardev_main env argv = (after_options env l).after o := by
  simp [swtpm_chardev_main, h]

theorem main_of_optionLoop_exit (env : Env) (argv : List GetoptResult) (status : Int)
    (o : List Event) (h : optionLoop env Locals.init argv = .exit status o) :
    swtpm_chardev_main env argv =
      { status := .exited status, out := o, notify_fd := (-1, -1) } := by
  simp [swtpm_chardev_main, h]

theorem main_out_after_option (env : Env) (before after : List GetoptResult)
    (g : GetoptResult) (l : Locals) (out : List Event)
    (hbefore : optionLoop env Locals.init before = .next l out) :
    ∃ t, (swtpm_chardev_main env (before ++ g :: after)).out =
      out ++ ((loopBody env l g).out ++ t) := by
  unfold swtpm_chardev_main
  rw [optionLoop_append_next env before _ _ _ _ hbefore, optionLoop_cons]
  cases hlb : loopBody env l g with
  | exit status o => exact ⟨[], by simp [Step.after, Step.out]⟩
  | next l1 o =>
    cases hrest : optionLoop env l1 after with
    | exit status o1 => exact ⟨o1, by simp [hrest, Step.after, Step.out]⟩
    | next l2 o1 =>
      exact ⟨o1 ++ (after_options env l2).out,
        by simp [hrest, Step.after, Step.out, Run.after]⟩

theorem main_of_option_exit (env : Env) (before after : List GetoptResult)
    (g : GetoptResult) (l : Locals) (out o : List Event) (status : Int)
    (hbefore : optionLoop env Locals.init before = .next l out)
    (hbody : loopBody env l g = .exit status o) :
    swtpm_chardev_main env (before ++ g :: after) =
      { status := .exited status, out := out ++ o, notify_fd := (-1, -1) } := by
  unfold swtpm_chardev_main
  rw [optionLoop_append_next env before _ _ _ _ hbefore, optionLoop_cons, hbody]
  simp [Step.after]

theorem loopBody_stored (env : Env) (l l1 : Locals) (g : GetoptResult) (o : List Event)
    (h : loopBody env l g = .next l1 o) : stored_by l l1 g := by
  unfold loopBody at h
  split at h
  case h_2 heq =>
    split_ifs at h <;> simp only [Step.next.injEq, reduceCtorEq] at h <;>
      obtain ⟨rfl, -⟩ := h <;> simp [stored_by, heq]
  case h_3 heq =>
    by_cases h1 : 0 ≤ l.mlp.fd
    · simp only [h1, if_true, Step.next.injEq] at h
      obtain ⟨rfl, -⟩ := h
      simp [stored_by, heq]
    · by_cases h2 : (strtoul env.strtoul_einval g.optarg.data).val ≠
          to_uint (strtoul env.strtoul_einval g.optarg.data).val ∨
          (strtoul env.strtoul_einval g.optarg.data).errno = true ∨
          (strtoul env.strtoul_einval g.optarg.data).end_ptr ≠ []
      · simp only [h1, h2, if_true, if_false, reduceCtorEq] at h
      · simp only [h1, h2, if_false] at h
        cases hf : env.fstat (to_int (strtoul env.strtoul_einval g.optarg.data).val) with
        | none => simp only [hf, reduceCtorEq] at h
        | some m =>
          simp only [hf] at h
          split_ifs at h
          simp only [Step.next.injEq] at h
          obtain ⟨rfl, -⟩ := h
          simp [stored_by, heq]
  all_goals first
    | (simp only [Step.next.injEq, reduceCtorEq] at h
       obtain ⟨rfl, -⟩ := h
       rename_i heq
       simp [stored_by, heq])
    | (simp only [reduceCtorEq] at h)

theorem optionLoop_stored (env : Env) (argv : List GetoptResult) :
    ∀ (l0 l : Locals) (o : List Event), optionLoop env l0 argv = .next l o →
      l.runas = argv.foldl (fun acc g => if g.opt = 'r' then some g.optarg else acc) l0.runas ∧
      l.logdata =
        argv.foldl (fun acc g => if g.opt = 'l' then some g.optarg else acc) l0.logdata ∧
      l.keydata =
        argv.foldl (fun acc g => if g.opt = 'k' then some g.optarg else acc) l0.keydata ∧
      l.piddata =
        argv.foldl (fun acc g => if g.opt = 'P' then some g.optarg else acc) l0.piddata ∧
      l.tpmstatedata =
        argv.foldl (fun acc g => if g.opt = 's' then some g.optarg else acc) l0.tpmstatedata ∧
      l.ctrlchdata =
        argv.foldl (fun acc g => if g.opt = 'C' then some g.optarg else acc) l0.ctrlchdata ∧
      l.daemonize = (l0.daemonize || argv.any (fun g => decide (g.opt = 'd'))) := by
  induction argv with
  | nil =>
    intro l0 l o h
    simp only [optionLoop_nil, Step.next.injEq] at h
    obtain ⟨rfl, -⟩ := h
    simp
  | cons g gs ih =>
    intro l0 l o h
    rw [optionLoop_cons] at h
    cases hlb : loopBody env l0 g with
    | exit status o1 => rw [hlb] at h; simp at h
    | next l1 o1 =>
      rw [hlb] at h
      simp only at h
      cases hrest : optionLoop env l1 gs with
      | exit status o2 => rw [hrest] at h; simp [Step.after] at h
      | next l2 o2 =>
        rw [hrest] at h
        simp only [Step.after, Step.next.injEq] at h
        obtain ⟨rfl, -⟩ := h
        obtain ⟨a1, a2, a3, a4, a5, a6, a7⟩ := loopBody_stored env l0 l1 g o1 hlb
        obtain ⟨b1, b2, b3, b4, b5, b6, b7⟩ := ih l1 l2 o2 hrest
        simp only [List.foldl_cons, List.any_cons]
        rw [← a1, ← a2, ← a3, ← a4, ← a5, ← a6]
        refine ⟨b1, b2, b3, b4, b5, b6, ?_⟩
        rw [b7, a7, Bool.or_assoc]

/-! ## `strtoul` and the shape of the accepted texts -/

theorem to_uint_eq_iff (v : Nat) : v = to_uint v ↔ v ≤ UINT_MAX := by
  unfold to_uint UINT_MAX
  constructor
  · intro h
    have : v % 2 ^ 32 < 2 ^ 32 := Nat.mod_lt _ (by norm_num)
    omega
  · intro h
    rw [Nat.mod_eq_of_lt (by omega)]

theorem strtoul_sign_spec (s : List Char) :
    ∃ sign, (sign = [] ∨ sign = ['+'] ∨ sign = ['-']) ∧
      ((strtoul_sign s).1 = true ↔ sign = ['-']) ∧ s = sign ++ (strtoul_sign s).2 := by
  unfold strtoul_sign
  split
  · exact ⟨['-'], by simp, by simp, by simp⟩
  · exact ⟨['+'], by simp, by simp, by simp⟩
  · exact ⟨[], by simp, by simp, by simp⟩

theorem not_isspace_of_isdigit (c : Char) (h : isdigit c = true) : isspace c = false := by
  cases hs : isspace c with
  | false => rfl
  | true =>
    simp only [isspace, Bool.or_eq_true, decide_eq_true_eq] at hs
    rcases hs with ((((rfl | rfl) | rfl) | rfl) | rfl) | rfl <;> revert h <;> decide

theorem strtoul_sign_of_isdigit (c : Char) (t : List Char) (h : isdigit c = true) :
    strtoul_sign (c :: t) = (false, c :: t) := by
  unfold strtoul_sign
  split
  · rename_i heq
    simp only [List.cons.injEq] at heq
    obtain ⟨rfl, -⟩ := heq
    exact absurd h (by decide)
  · rename_i heq
    simp only [List.cons.injEq] at heq
    obtain ⟨rfl, -⟩ := heq
    exact absurd h (by decide)
  · rfl

theorem dropWhile_append_of_all (p : Char → Bool) (ws r : List Char)
    (h : ∀ c ∈ ws, p c = true) : (ws ++ r).dropWhile p = r.dropWhile p := by
  induction ws with
  | nil => rfl
  | cons a as ih =>
    have ha : p a = true := h a (List.mem_cons_self _ _)
    simp only [List.cons_append, List.dropWhile_cons, ha, if_true]
    exact ih (fun c hc => h c (List.mem_cons_of_mem _ hc))

theorem takeWhile_of_all (p : Char → Bool) (ds : List Char) (h : ∀ c ∈ ds, p c = true) :
    ds.takeWhile p = ds := by
  induction ds with
  | nil => rfl
  | cons a as ih =>
    have ha : p a = true := h a (List.mem_cons_self _ _)
    simp only [List.takeWhile_cons, ha, if_true]
    rw [ih (fun c hc => h c (List.mem_cons_of_mem _ hc))]

theorem dropWhile_of_all (p : Char → Bool) (ds : List Char) (h : ∀ c ∈ ds, p c = true) :
    ds.dropWhile p = [] := by
  have := dropWhile_append_of_all p ds [] h
  simpa using this

theorem all_of_dropWhile_nil (p : Char → Bool) (l : List Char) (h : l.dropWhile p = []) :
    l.takeWhile p = l ∧ ∀ c ∈ l, p c = true := by
  induction l with
  | nil => simp
  | cons a as ih =>
    cases ha : p a with
    | false => simp [List.dropWhile_cons, ha] at h
    | true =>
      simp only [List.dropWhile_cons, ha, if_true] at h
      obtain ⟨h1, h2⟩ := ih h
      refine ⟨by simp [List.takeWhile_cons, ha, h1], ?_⟩
      intro c hc
      rcases List.mem_cons.mp hc with rfl | hc
      · exact ha
      · exact h2 c hc

theorem all_takeWhile (p : Char → Bool) (l : List Char) : ∀ c ∈ l.takeWhile p, p c = true := by
  induction l with
  | nil => simp
  | cons a as ih =>
    cases ha : p a with
    | false => simp [List.takeWhile_cons, ha]
    | true =>
      simp only [List.takeWhile_cons, ha, if_true]
      intro c hc
      rcases List.mem_cons.mp hc with rfl | hc
      · exact ha
      · exact ih c hc

/-- The text after the white space and the sign, for a text of the accepted shape. -/
theorem strtoul_subject (ws sign ds : List Char) (hws : ∀ c ∈ ws, isspace c = true)
    (hsign : sign = [] ∨ sign = ['+'] ∨ sign = ['-']) (hne : ds ≠ [])
    (hds : ∀ c ∈ ds, isdigit c = true) :
    strtoul_sign ((ws ++ sign ++ ds).dropWhile isspace) = (decide (sign = ['-']), ds) := by
  obtain ⟨d, t, rfl⟩ := List.exists_cons_of_ne_nil hne
  have hd : isdigit d = true := hds d (List.mem_cons_self _ _)
  rw [List.append_assoc, dropWhile_append_of_all isspace ws _ hws]
  rcases hsign with rfl | rfl | rfl
  · rw [List.nil_append, List.dropWhile_cons, not_isspace_of_isdigit d hd]
    simp only [Bool.false_eq_true, if_false]
    rw [strtoul_sign_of_isdigit d t hd]
    simp
  · have : isspace '+' = false := by decide
    simp [List.dropWhile_cons, this, strtoul_sign]
  · have : isspace '-' = false := by decide
    simp [List.dropWhile_cons, this, strtoul_sign]

theorem strtoul_accepts_iff (einval : Bool) (s : String) (n : Int) :
    fd_parses einval s n ↔ passing_fd_text einval s.data n := by
  constructor
  · rintro ⟨hval, herr, hend, hn⟩
    obtain ⟨sign, hsign, hneg, hsplit⟩ := strtoul_sign_spec (s.data.dropWhile isspace)
    unfold strtoul at hval herr hend hn
    simp only at hval herr hend hn
    by_cases hds : (strtoul_sign (s.data.dropWhile isspace)).2.takeWhile isdigit = []
    · simp only [hds, if_true] at herr hend hn
      left
      refine ⟨hend, herr, ?_⟩
      rw [← hn]; rfl
    · simp only [hds, if_false] at hval herr hend hn
      by_cases hov : ULONG_MAX <
          digits_value ((strtoul_sign (s.data.dropWhile isspace)).2.takeWhile isdigit)
      · simp [hov] at herr
      · simp only [hov, if_false] at hval herr hend hn
        have hrest : (strtoul_sign (s.data.dropWhile isspace)).2.dropWhile isdigit = [] := by
          split_ifs at hend <;> exact hend
        obtain ⟨htake, hall⟩ := all_of_dropWhile_nil isdigit _ hrest
        rw [htake] at hds hov hval hn
        right
        refine ⟨s.data.takeWhile isspace, sign, (strtoul_sign (s.data.dropWhile isspace)).2,
          ?_, all_takeWhile isspace s.data, hsign, hds, hall, not_lt.mp hov, ?_, ?_⟩
        · rw [List.append_assoc, ← hsplit, List.takeWhile_append_dropWhile]
        · by_cases hm : (strtoul_sign (s.data.dropWhile isspace)).1 = true
          · have hs : sign = ['-'] := hneg.mp hm
            simp only [hm, if_true] at hval
            simp only [hs, if_true]
            exact (to_uint_eq_iff _).mp hval
          · have hs : ¬ sign = ['-'] := fun h => hm (hneg.mpr h)
            simp only [hm, if_false] at hval
            simp only [hs, if_false]
            exact (to_uint_eq_iff _).mp hval
        · by_cases hm : (strtoul_sign (s.data.dropWhile isspace)).1 = true
          · have hs : sign = ['-'] := hneg.mp hm
            simp only [hm, if_true] at hn
            simp only [hs, if_true]
            exact hn.symm
          · have hs : ¬ sign = ['-'] := fun h => hm (hneg.mpr h)
            simp only [hm, if_false] at hn
            simp only [hs, if_false]
            exact hn.symm
  · rintro (⟨hs, he, hn⟩ | ⟨ws, sign, ds, hs, hws, hsign, hne, hds, hmax, hfit, hn⟩)
    · subst he
      simp [fd_parses, hs, strtoul, strtoul_sign, to_uint, to_int, hn]
    · have hsub := strtoul_subject ws sign ds hws hsign hne hds
      have htake := takeWhile_of_all isdigit ds hds
      have hdrop := dropWhile_of_all isdigit ds hds
      have hov : ¬ ULONG_MAX < digits_value ds := not_lt.mpr hmax
      unfold fd_parses strtoul
      simp only [hs, hsub, htake, hdrop, hne, hov, if_false]
      by_cases hm : sign = ['-']
      · simp only [hm, if_true, decide_True] at hfit hn ⊢
        exact ⟨(to_uint_eq_iff _).mpr hfit, trivial, trivial, hn.symm⟩
      · simp only [hm, if_false, decide_False, Bool.false_eq_true] at hfit hn ⊢
        exact ⟨(to_uint_eq_iff _).mpr hfit, trivial, trivial, hn.symm⟩

theorem to_int_of_le_INT_MAX (v : Nat) (h : v ≤ INT_MAX) : to_int v = (v : Int) := by
  unfold INT_MAX at h
  unfold to_int
  have h1 : v % 2 ^ 32 = v := Nat.mod_eq_of_lt (by omega)
  rw [h1, if_pos (by omega)]

theorem passing_of_plain (einval : Bool) (s : List Char) (n : Int)
    (h : plain_fd_text s n) : passing_fd_text einval s n := by
  obtain ⟨ws, sign, ds, hs, hws, hsign, hne, hds, hmax, hn⟩ := h
  have hneg : ¬ sign = ['-'] := by
    rcases hsign with rfl | rfl <;> simp
  have hi : digits_value ds ≤ 2 ^ 31 - 1 := hmax
  refine Or.inr ⟨ws, sign, ds, hs, hws, ?_, hne, hds, ?_, ?_, ?_⟩
  · rcases hsign with h | h
    · exact Or.inl h
    · exact Or.inr (Or.inl h)
  · unfold ULONG_MAX; omega
  · rw [if_neg hneg]; unfold UINT_MAX; omega
  · rw [if_neg hneg, to_int_of_le_INT_MAX _ hmax]; exact hn

theorem plain_of_passing (einval : Bool) (s : List Char) (n : Int)
    (h : passing_fd_text einval s n) (hslip : ¬ slip_fd_text s) : plain_fd_text s n := by
  rcases h with ⟨hs, -, -⟩ | ⟨ws, sign, ds, hs, hws, hsign, hne, hds, hmax, hfit, hn⟩
  · exact absurd (Or.inl hs) hslip
  · rcases hsign with rfl | rfl | rfl
    · have hne1 : ¬ ([] : List Char) = ['-'] := by decide
      simp only [hne1, if_false] at hfit hn
      by_cases hi : digits_value ds ≤ INT_MAX
      · exact ⟨ws, [], ds, hs, hws, Or.inl rfl, hne, hds, hi,
          by rw [hn, to_int_of_le_INT_MAX _ hi]⟩
      · exact absurd (Or.inr (Or.inr ⟨ws, [], ds, hs, hws, Or.inl rfl, hne, hds,
          not_le.mp hi, hfit⟩)) hslip
    · have hne2 : ¬ (['+'] : List Char) = ['-'] := by decide
      simp only [hne2, if_false] at hfit hn
      by_cases hi : digits_value ds ≤ INT_MAX
      · exact ⟨ws, ['+'], ds, hs, hws, Or.inr rfl, hne, hds, hi,
          by rw [hn, to_int_of_le_INT_MAX _ hi]⟩
      · exact absurd (Or.inr (Or.inr ⟨ws, ['+'], ds, hs, hws, Or.inr rfl, hne, hds,
          not_le.mp hi, hfit⟩)) hslip
    · simp only [if_true] at hfit
      exact absurd (Or.inr (Or.inl ⟨ws, ds, hs, hws, hne, hds, hmax, hfit⟩)) hslip

theorem loopBody_unrecognized (env : Env) (l : Locals) (g : GetoptResult)
    (h : g.opt ∉ recognized_options) :
    loopBody env l g = .exit EXIT_FAILURE (usage .stderr) := by
  simp only [recognized_options, List.mem_cons, List.mem_singleton, List.not_mem_nil,
    or_false, not_or] at h
  obtain ⟨h1, h2, h3, h4, h5, h6, h7, h8, h9, h10⟩ := h
  unfold loopBody
  split <;> first | rfl | (rename_i heq; simp [heq] at *)

theorem loopBody_c_unopenable (env : Env) (l : Locals) (path : String) (hfirst : l.mlp.fd < 0)
    (h : env.open_ path < 0) :
    loopBody env l ⟨'c', path⟩ =
      .exit 1 [.open_ path, .fprintf .stderr "Cannot open %s: %s\n"] := by
  have h1 : ¬ 0 ≤ l.mlp.fd := not_le.mpr hfirst
  simp only [loopBody, h1, h, if_true, if_false]

/-- The run calls `fstat` with `n` for the first `-f` exactly when its text gets past
the check of line 192 with `n`; every other text ends the process at that check. -/
theorem fstat_reached_iff_passing (env : Env) (before after : List GetoptResult)
    (s : String) (l : Locals) (out : List Event)
    (hbefore : optionLoop env Locals.init before = .next l out) (hfirst : l.mlp.fd < 0) :
    (∀ n, (∃ t, (swtpm_chardev_main env (before ++ ⟨'f', s⟩ :: after)).out =
          out ++ .fstat n :: t) ↔ passing_fd_text env.strtoul_einval s.data n) ∧
    ((¬ ∃ n, passing_fd_text env.strtoul_einval s.data n) →
      swtpm_chardev_main env (before ++ ⟨'f', s⟩ :: after) =
        { status := .exited 1
          out := out ++ [.fprintf .stderr "Cannot parse character device file descriptor.\n"]
          notify_fd := (-1, -1) }) := by
  have hrej : (¬ ∃ n, passing_fd_text env.strtoul_einval s.data n) →
      swtpm_chardev_main env (before ++ ⟨'f', s⟩ :: after) =
        { status := .exited 1
          out := out ++ [.fprintf .stderr "Cannot parse character device file descriptor.\n"]
          notify_fd := (-1, -1) } := by
    intro hno
    apply main_of_option_exit env before after _ l out _ 1 hbefore
    apply loopBody_f_unparsable env l s hfirst
    rintro ⟨n, hn⟩
    exact hno ⟨n, (strtoul_accepts_iff _ s n).mp hn⟩
  refine ⟨?_, hrej⟩
  intro n
  obtain ⟨t1, ht1⟩ := main_out_after_option env before after ⟨'f', s⟩ l out hbefore
  constructor
  · rintro ⟨t, ht⟩
    by_cases hp : ∃ n0, passing_fd_text env.strtoul_einval s.data n0
    · obtain ⟨n0, hn0⟩ := hp
      obtain ⟨t0, ht0⟩ := loopBody_f_parsed_out env l s n0 hfirst
        ((strtoul_accepts_iff _ s n0).mpr hn0)
      rw [ht1, ht0] at ht
      have := List.append_cancel_left ht
      simp only [List.cons_append, List.cons.injEq, Event.fstat.injEq] at this
      rw [← this.1]
      exact hn0
    · rw [hrej hp] at ht
      have := List.append_cancel_left ht
      simp at this
  · intro hn
    obtain ⟨t0, ht0⟩ := loopBody_f_parsed_out env l s n hfirst
      ((strtoul_accepts_iff _ s n).mpr hn)
    exact ⟨t0 ++ t1, by rw [ht1, ht0]; simp⟩

/-! ## The signal handler: general facts -/

theorem deliver_signals_state (ws : List Int) :
    ∀ g : Globals, (deliver_signals ws g).1 =
      { notify_fd := g.notify_fd, mainloop_terminate := g.mainloop_terminate || !ws.isEmpty } := by
  induction ws with
  | nil => intro g; simp [deliver_signals]
  | cons w ws ih => intro g; simp [deliver_signals, ih, sigterm_handler]

theorem deliver_signals_out (ws : List Int) :
    ∀ g : Globals,
      (deliver_signals ws g).2.filter Event.is_write =
          List.replicate ws.length (.write g.notify_fd.2 "T" 1) ∧
      (deliver_signals ws g).2.filter (fun e => !e.is_write) =
          List.replicate (ws.filter (fun w => decide (w < 0))).length sigterm_report := by
  induction ws with
  | nil => intro g; simp [deliver_signals]
  | cons w ws ih =>
    intro g
    have h := ih (sigterm_handler w g).1
    have hfd : (sigterm_handler w g).1.notify_fd = g.notify_fd := rfl
    rw [hfd] at h
    have hcons : (deliver_signals (w :: ws) g).2 =
        (sigterm_handler w g).2 ++ (deliver_signals ws (sigterm_handler w g).1).2 := rfl
    rw [hcons, List.filter_append, List.filter_append, h.1, h.2]
    by_cases hw : w < 0
    · have h2 : (sigterm_handler w g).2 = [.write g.notify_fd.2 "T" 1, sigterm_report] := by
        simp [sigterm_handler, hw, sigterm_report]
      rw [h2]
      simp [Event.is_write, sigterm_report, hw, List.replicate_succ]
    · have h2 : (sigterm_handler w g).2 = [.write g.notify_fd.2 "T" 1] := by
        simp [sigterm_handler, hw]
      rw [h2]
      simp [Event.is_write, hw, List.replicate_succ]

/-! ## From the option loop to `tpmlib_start` -/

theorem after_options_of_succeeds (env : Env) (l : Locals) (h : startup_succeeds env l) :
    after_options env l = (run_tpm env (final_mlp env l)).after (startup_calls env l) := by
  obtain ⟨h0, h1, h2, h3, h4, h5, h6, h7, h8⟩ := h
  have h0' : ¬ l.mlp.fd < 0 := not_lt.mpr h0
  unfold after_options handle_options daemonize_step write_pidfile
  simp only [h0', h2, h3, h4, h5, h6, h8, if_false]
  cases hr : l.runas with
  | none =>
    cases hd : l.daemonize with
    | false => simp [Run.after, startup_calls, hr, hd, final_mlp]
    | true =>
      have := h7 hd
      simp [Run.after, startup_calls, hr, hd, final_mlp, this]
  | some user =>
    have hu := h1 user hr
    cases hd : l.daemonize with
    | false => simp [Run.after, startup_calls, hr, hd, final_mlp, hu]
    | true =>
      have := h7 hd
      simp [Run.after, startup_calls, hr, hd, final_mlp, this, hu]

theorem early_failure_return (env : Env) (evs : List Event)
    (h1 : ∀ e ∈ evs, e.is_early_call = true)
    (h2 : ∀ pid, Event.pidfile_write pid ∈ evs →
      pid = env.getpid ∧ env.pidfile_write env.getpid < 0) :
    early_failure env (return_failure evs) :=
  ⟨rfl, rfl, h1, h2⟩

theorem early_failure_after (env : Env) (evs : List Event) (r : Run)
    (h1 : ∀ e ∈ evs, e.is_early_call = true)
    (h2 : ∀ pid, Event.pidfile_write pid ∉ evs) (hr : early_failure env r) :
    early_failure env (r.after evs) := by
  obtain ⟨ha, hb, hc, hd⟩ := hr
  refine ⟨ha, hb, ?_, ?_⟩
  · intro e he
    simp only [Run.after, List.mem_append] at he
    rcases he with he | he
    · exact h1 e he
    · exact hc e he
  · intro pid hpid
    simp only [Run.after, List.mem_append] at hpid
    rcases hpid with hpid | hpid
    · exact absurd hpid (h2 pid)
    · exact hd pid hpid

theorem write_pidfile_of_fails (env : Env) (mlp : mainLoopParams)
    (h : env.pidfile_write env.getpid < 0) : early_failure env (write_pidfile env mlp) := by
  unfold write_pidfile
  rw [if_pos h]
  apply early_failure_return
  · simp [Event.is_early_call]
  · intro pid hpid
    simp only [List.mem_singleton, Event.pidfile_write.injEq] at hpid
    exact ⟨hpid, h⟩

theorem daemonize_step_of_fails (env : Env) (l : Locals) (mlp : mainLoopParams)
    (h : ¬ ((l.daemonize = true → env.daemon = 0) ∧ ¬ env.pidfile_write env.getpid < 0)) :
    early_failure env (daemonize_step env l mlp) := by
  unfold daemonize_step
  cases hd : l.daemonize with
  | false =>
    simp only [Bool.false_eq_true, if_false]
    apply write_pidfile_of_fails
    by_contra hc
    exact h ⟨fun hdt => absurd hdt (by simp [hd]), hc⟩
  | true =>
    simp only [if_true]
    by_cases hdm : env.daemon ≠ 0
    · rw [if_pos hdm]
      apply early_failure_return
      · simp [Event.is_early_call]
      · simp
    · rw [if_neg hdm]
      apply early_failure_after
      · simp [Event.is_early_call]
      · simp
      · apply write_pidfile_of_fails
        by_contra hc
        exact h ⟨fun _ => not_not.mp hdm, hc⟩

theorem handle_options_of_fails (env : Env) (l : Locals)
    (h : ¬ (¬ env.handle_log_options l.logdata < 0 ∧
      ¬ env.handle_key_options l.keydata < 0 ∧
      ¬ env.handle_pid_options l.piddata < 0 ∧
      ¬ env.handle_tpmstate_options l.tpmstatedata < 0 ∧
      ¬ (env.handle_ctrlchannel_options l.ctrlchdata).1 < 0 ∧
      (l.daemonize = true → env.daemon = 0) ∧ ¬ env.pidfile_write env.getpid < 0)) :
    early_failure env (handle_options env l) := by
  unfold handle_options
  by_cases h1 : env.handle_log_options l.logdata < 0
  · rw [if_pos h1]
    exact early_failure_return env _ (by simp [Event.is_early_call]) (by simp)
  rw [if_neg h1]
  by_cases h2 : env.handle_key_options l.keydata < 0
  · rw [if_pos h2]
    exact early_failure_return env _ (by simp [Event.is_early_call]) (by simp)
  rw [if_neg h2]
  by_cases h3 : env.handle_pid_options l.piddata < 0
  · rw [if_pos h3]
    exact early_failure_return env _ (by simp [Event.is_early_call]) (by simp)
  rw [if_neg h3]
  by_cases h4 : env.handle_tpmstate_options l.tpmstatedata < 0
  · rw [if_pos h4]
    exact early_failure_return env _ (by simp [Event.is_early_call]) (by simp)
  rw [if_neg h4]
  by_cases h5 : (env.handle_ctrlchannel_options l.ctrlchdata).1 < 0
  · rw [if_pos h5]
    exact early_failure_return env _ (by simp [Event.is_early_call]) (by simp)
  rw [if_neg h5]
  apply early_failure_after
  · simp [Event.is_early_call]
  · simp
  · apply daemonize_step_of_fails
    intro hc
    exact h ⟨h1, h2, h3, h4, h5, hc⟩

theorem after_options_of_fails (env : Env) (l : Locals) (h : ¬ startup_succeeds env l) :
    early_failure env (after_options env l) := by
  unfold after_options
  by_cases h0 : l.mlp.fd < 0
  · rw [if_pos h0]
    exact early_failure_return env _ (by simp [Event.is_early_call]) (by simp)
  rw [if_neg h0]
  cases hr : l.runas with
  | none =>
    simp only
    apply handle_options_of_fails
    intro hc
    exact h ⟨not_lt.mp h0, fun user hu => absurd hu (by simp [hr]), hc⟩
  | some user =>
    simp only
    by_cases hu : env.change_process_owner user < 0
    · rw [if_pos hu]
      exact early_failure_return env _ (by simp [Event.is_early_call]) (by simp)
    · rw [if_neg hu]
      apply early_failure_after
      · simp [Event.is_early_call]
      · simp
      · apply handle_options_of_fails
        intro hc
        refine h ⟨not_lt.mp h0, ?_, hc⟩
        intro user1 hu1
        rw [hr] at hu1
        simp only [Option.some.injEq] at hu1
        rw [← hu1]
        exact hu

theorem startup_calls_early (env : Env) (l : Locals) :
    ∀ e ∈ startup_calls env l, e.is_early_call = true := by
  have h : (startup_calls env l).all Event.is_early_call = true := by
    unfold startup_calls
    cases l.runas <;> cases l.daemonize <;> rfl
  intro e he
  exact List.all_eq_true.mp h e he

theorem main_of_startup_succeeds (env : Env) (argv : List GetoptResult) (l : Locals)
    (o : List Event) (h : optionLoop env Locals.init argv = .next l o)
    (hs : startup_succeeds env l) :
    swtpm_chardev_main env argv =
      (run_tpm env (final_mlp env l)).after (o ++ startup_calls env l) := by
  rw [main_of_optionLoop_next env argv l o h, after_options_of_succeeds env l hs]
  simp [Run.after]

/-- A call that is neither an option call nor an early call is made only after the whole
start-up up to `pidfile_write` has succeeded; the same holds for a `pidfile_write` that
succeeds. -/
theorem startup_succeeds_of_mem (env : Env) (argv : List GetoptResult) (e : Event)
    (he : e ∈ (swtpm_chardev_main env argv).out)
    (hkind : (e.is_option_call = false ∧ e.is_early_call = false) ∨
      (e = .pidfile_write env.getpid ∧ ¬ env.pidfile_write env.getpid < 0)) :
    ∃ l o, optionLoop env Locals.init argv = .next l o ∧ startup_succeeds env l ∧
      ∀ x ∈ o, x.is_option_call = true := by
  have hopt := optionLoop_out_option_calls env argv Locals.init
  have hnot : e.is_option_call = false := by
    rcases hkind with h | h
    · exact h.1
    · rw [h.1]; rfl
  cases hloop : optionLoop env Locals.init argv with
  | exit status o =>
    rw [main_of_optionLoop_exit env argv status o hloop] at he
    rw [hloop] at hopt
    have := hopt e he
    rw [hnot] at this
    exact absurd this (by simp)
  | next l o =>
    rw [hloop] at hopt
    refine ⟨l, o, rfl, ?_, hopt⟩
    by_contra hs
    obtain ⟨-, -, hearly, hpid⟩ := after_options_of_fails env l hs
    rw [main_of_optionLoop_next env argv l o hloop] at he
    simp only [Run.after, List.mem_append] at he
    rcases he with he | he
    · have := hopt e he
      rw [hnot] at this
      exact absurd this (by simp)
    · rcases hkind with h | h
      · have := hearly e he
        rw [h.2] at this
        exact absurd this (by simp)
      · rw [h.1] at he
        exact h.2 (hpid _ he).2

theorem not_teardown_of_option_call (e : Event) (h : e.is_option_call = true) :
    e.is_teardown_call = false := by
  cases e <;> simp_all [Event.is_option_call, Event.is_teardown_call]

theorem not_teardown_of_early_call (e : Event) (h : e.is_early_call = true) :
    e.is_teardown_call = false := by
  cases e <;> simp_all [Event.is_early_call, Event.is_teardown_call]

theorem not_startup_of_option_call (e : Event) (h : e.is_option_call = true) :
    e.is_startup_call = false := by
  cases e <;> simp_all [Event.is_option_call, Event.is_startup_call]

theorem through_first_failure_append_ok (e : Event) (rest : List (Event × Bool)) :
    through_first_failure ((e, false) :: rest) = e :: through_first_failure rest := rfl

theorem write_pidfile_startup_calls (env : Env) (mlp : mainLoopParams) :
    (write_pidfile env mlp).out.filter Event.is_startup_call =
      through_first_failure (tpm_plan env mlp) := by
  unfold write_pidfile tpm_plan
  by_cases h1 : env.pidfile_write env.getpid < 0
  · simp [h1, return_failure, through_first_failure, Event.is_startup_call]
  by_cases h2 : env.tpmlib_start ≠ 0
  · simp [h1, h2, run_tpm, Run.after, error_no_tpm, through_first_failure,
      Event.is_startup_call]
  by_cases h3 : env.install_sighandlers.1 < 0
  · simp [h1, h2, h3, run_tpm, Run.after, error_no_tpm, error_no_sighandlers,
      through_first_failure, Event.is_startup_call]
  · by_cases h4 : to_TPM_RESULT (env.mainLoop mlp env.install_sighandlers.2.1) = 0 <;>
      simp [h1, h2, h3, h4, run_tpm, Run.after, error_no_tpm, error_no_sighandlers,
        through_first_failure, Event.is_startup_call]

theorem daemonize_step_startup_calls (env : Env) (l : Locals) (mlp : mainLoopParams) :
    (daemonize_step env l mlp).out.filter Event.is_startup_call =
      through_first_failure
        ((if l.daemonize then [(Event.daemon 0 0, decide (env.daemon ≠ 0))] else []) ++
          tpm_plan env mlp) := by
  unfold daemonize_step
  cases hd : l.daemonize with
  | false =>
    simp only [Bool.false_eq_true, if_false, List.nil_append]
    exact write_pidfile_startup_calls env mlp
  | true =>
    simp only [if_true, List.singleton_append]
    by_cases h : env.daemon ≠ 0
    · rw [if_pos h]
      simp [h, return_failure, through_first_failure, Event.is_startup_call]
    · rw [if_neg h]
      have hdec : decide (env.daemon ≠ 0) = false := by simp [h]
      rw [hdec, through_first_failure_append_ok, ← write_pidfile_startup_calls]
      simp [Run.after, Event.is_startup_call]

theorem handle_options_startup_calls (env : Env) (l : Locals) :
    (handle_options env l).out.filter Event.is_startup_call =
      through_first_failure (options_plan env l) := by
  unfold handle_options options_plan
  by_cases h1 : env.handle_log_options l.logdata < 0
  · simp [h1, return_failure, through_first_failure, Event.is_startup_call]
  by_cases h2 : env.handle_key_options l.keydata < 0
  · simp [h1, h2, return_failure, through_first_failure, Event.is_startup_call]
  by_cases h3 : env.handle_pid_options l.piddata < 0
  · simp [h1, h2, h3, return_failure, through_first_failure, Event.is_startup_call]
  by_cases h4 : env.handle_tpmstate_options l.tpmstatedata < 0
  · simp [h1, h2, h3, h4, return_failure, through_first_failure, Event.is_startup_call]
  by_cases h5 : (env.handle_ctrlchannel_options l.ctrlchdata).1 < 0
  · simp [h1, h2, h3, h4, h5, return_failure, through_first_failure, Event.is_startup_call]
  · have hstep := daemonize_step_startup_calls env l (final_mlp env l)
    simp only [h1, h2, h3, h4, h5, if_false, decide_False, List.cons_append, List.nil_append,
      through_first_failure_append_ok, Run.after]
    rw [← hstep]
    simp [Event.is_startup_call, final_mlp]

theorem startup_plan_eq (env : Env) (l : Locals) :
    startup_plan env l =
      (match l.runas with
        | some user =>
          [(Event.change_process_owner user, decide (env.change_process_owner user < 0))]
        | none => []) ++ options_plan env l := by
  unfold startup_plan options_plan tpm_plan
  simp only [List.append_assoc]

theorem after_options_startup_calls (env : Env) (l : Locals) (hfd : 0 ≤ l.mlp.fd) :
    (after_options env l).out.filter Event.is_startup_call =
      through_first_failure (startup_plan env l) := by
  have hfd' : ¬ l.mlp.fd < 0 := not_lt.mpr hfd
  rw [startup_plan_eq]
  simp only [after_options, hfd', if_false]
  cases hr : l.runas with
  | none =>
    simp only [List.nil_append]
    exact handle_options_startup_calls env l
  | some user =>
    simp only [List.singleton_append]
    by_cases h : env.change_process_owner user < 0
    · simp [h, return_failure, through_first_failure, Event.is_startup_call]
    · have hdec : decide (env.change_process_owner user < 0) = false := by simp [h]
      rw [if_neg h, hdec, through_first_failure_append_ok, ← handle_options_startup_calls]
      simp [Run.after, Event.is_startup_call]

theorem through_first_failure_is_initial (p : List (Event × Bool)) :
    through_first_failure p <+: p.map Prod.fst := by
  induction p with
  | nil => simp [through_first_failure]
  | cons x xs ih =>
    obtain ⟨e, failed⟩ := x
    cases failed with
    | true => simp [through_first_failure]
    | false =>
      simp only [through_first_failure, Bool.false_eq_true, if_false, List.map_cons]
      exact (List.cons_prefix_cons).mpr ⟨rfl, ih⟩

/-! ## The claims -/

/-- What the code does where C1 asks for a failure status: in every run in which
`install_sighandlers` is called and returns a negative value, `swtpm_chardev_main` returns
`EXIT_SUCCESS`, because `rc` still holds the 0 of the successful `tpmlib_start`. -/
theorem sighandler_failure_returns_success (env : Env) (argv : List GetoptResult)
    (hcalled : Event.install_sighandlers ∈ (swtpm_chardev_main env argv).out)
    (hfail : env.install_sighandlers.1 < 0) :
    (swtpm_chardev_main env argv).status = .returned EXIT_SUCCESS := by
  obtain ⟨l, o, hloop, hs, ho⟩ :=
    startup_succeeds_of_mem env argv _ hcalled (Or.inl ⟨rfl, rfl⟩)
  rw [main_of_startup_succeeds env argv l o hloop hs] at hcalled ⊢
  by_cases ht : env.tpmlib_start ≠ 0
  · simp only [Run.after, List.mem_append] at hcalled
    rcases hcalled with (hc | hc) | hc
    · exact absurd (ho _ hc) (by simp [Event.is_option_call])
    · exact absurd (startup_calls_early env l _ hc) (by simp [Event.is_early_call])
    · simp [run_tpm, ht, Run.after, error_no_tpm] at hc
  · have ht0 : env.tpmlib_start = 0 := not_not.mp ht
    simp [run_tpm, ht0, hfail, Run.after, error_no_sighandlers, error_no_tpm]

/-- C1 at a concrete input: `-c /dev/tpm0` with every call succeeding except
`install_sighandlers`, which returns -1; the function returns `EXIT_SUCCESS`, which is 0. -/
theorem sighandler_failure_returns_success_witness :
    Event.install_sighandlers ∈
      (swtpm_chardev_main { Env.sample with install_sighandlers := (-1, (-1, -1)) }
        [⟨'c', "/dev/tpm0"⟩]).out ∧
    ((-1 : Int), ((-1 : Int), (-1 : Int))).1 < 0 ∧
    (swtpm_chardev_main { Env.sample with install_sighandlers := (-1, (-1, -1)) }
      [⟨'c', "/dev/tpm0"⟩]).status = .returned EXIT_SUCCESS ∧
    EXIT_SUCCESS = 0 :=
  ⟨by decide, by decide,
    sighandler_failure_returns_success
      { Env.sample with install_sighandlers := (-1, (-1, -1)) }
      [⟨'c', "/dev/tpm0"⟩] (by decide) (by decide),
    rfl⟩

/-- C2, as stated, fails: with an unrecognized option, an unparsable `-f` value or an
unopenable `-c` path in front of `-h`, the run ends with failure status and prints
nothing to standard output. -/
theorem help_after_bad_option_fails :
    swtpm_chardev_main Env.sample [⟨'?', ""⟩, ⟨'h', ""⟩] =
        { status := .exited EXIT_FAILURE, out := usage .stderr, notify_fd := (-1, -1) } ∧
    swtpm_chardev_main Env.sample [⟨'f', "x"⟩, ⟨'h', ""⟩] =
        { status := .exited 1
          out := [.fprintf .stderr "Cannot parse character device file descriptor.\n"]
          notify_fd := (-1, -1) } ∧
    swtpm_chardev_main Env.sample [⟨'c', "/dev/nonexistent"⟩, ⟨'h', ""⟩] =
        { status := .exited 1
          out := [.open_ "/dev/nonexistent", .fprintf .stderr "Cannot open %s: %s\n"]
          notify_fd := (-1, -1) } ∧
    Status.exited EXIT_FAILURE ≠ Status.exited EXIT_SUCCESS ∧
    Status.exited 1 ≠ Status.exited EXIT_SUCCESS := by
  refine ⟨by rfl, by rfl, by rfl, by decide, by decide⟩

/-- C2, amended: let the options `before` be read without ending the process
(`optionLoop` gets through them).  Then `-h` as the next option prints the usage text to
standard output right after the calls made so far and ends the process with
`EXIT_SUCCESS`, whatever follows it.  If instead the next option, in front of `-h`, is
an unrecognized one, or the first `-c` with a path that does not open, or the first `-f`
with a text that fails the parse check, the process ends there with failure status (the
usage text going to standard error for the unrecognized option) and `-h` is never read. -/
theorem help_exits_with_success (env : Env) (before between after : List GetoptResult)
    (optarg : String) (l : Locals) (out : List Event)
    (hbefore : optionLoop env Locals.init before = .next l out) :
    swtpm_chardev_main env (before ++ ⟨'h', optarg⟩ :: after) =
      { status := .exited EXIT_SUCCESS, out := out ++ usage .stdout, notify_fd := (-1, -1) } ∧
    (∀ g : GetoptResult, g.opt ∉ recognized_options →
      swtpm_chardev_main env (before ++ g :: (between ++ ⟨'h', optarg⟩ :: after)) =
        { status := .exited EXIT_FAILURE, out := out ++ usage .stderr,
          notify_fd := (-1, -1) }) ∧
    (∀ path : String, l.mlp.fd < 0 → env.open_ path < 0 →
      swtpm_chardev_main env
          (before ++ ⟨'c', path⟩ :: (between ++ ⟨'h', optarg⟩ :: after)) =
        { status := .exited 1
          out := out ++ [.open_ path, .fprintf .stderr "Cannot open %s: %s\n"]
          notify_fd := (-1, -1) }) ∧
    (∀ s : String, l.mlp.fd < 0 → (¬ ∃ n, fd_parses env.strtoul_einval s n) →
      swtpm_chardev_main env
          (before ++ ⟨'f', s⟩ :: (between ++ ⟨'h', optarg⟩ :: after)) =
        { status := .exited 1
          out := out ++ [.fprintf .stderr "Cannot parse character device file descriptor.\n"]
          notify_fd := (-1, -1) }) ∧
    Status.exited EXIT_FAILURE ≠ Status.exited EXIT_SUCCESS ∧
    Status.exited 1 ≠ Status.exited EXIT_SUCCESS := by
  refine ⟨?_, ?_, ?_, ?_, by decide, by decide⟩
  · have h := optionLoop_append_next env before (⟨'h', optarg⟩ :: after) _ _ _ hbefore
    simp [swtpm_chardev_main, h, optionLoop_cons, loopBody, Step.after]
  · intro g hg
    exact main_of_option_exit env before _ g l out _ _ hbefore
      (loopBody_unrecognized env l g hg)
  · intro path hfirst hopen
    exact main_of_option_exit env before _ _ l out _ _ hbefore
      (loopBody_c_unopenable env l path hfirst hopen)
  · intro s hfirst hparse
    exact main_of_option_exit env before _ _ l out _ _ hbefore
      (loopBody_f_unparsable env l s hfirst hparse)

/-- C2, amended, at concrete inputs: `-d -c /dev/tpm0 -h` followed by an unrecognized
option and an unparsable `-f`; and `-d -c /dev/tpm0`, an unrecognized option, `--key`
and `-h`. -/
theorem help_exits_with_success_witness :
    optionLoop Env.sample Locals.init [⟨'d', ""⟩, ⟨'c', "/dev/tpm0"⟩] =
        .next { Locals.init with daemonize := true, mlp := { fd := 3, flags := 0, cc := none } }
          [.open_ "/dev/tpm0"] ∧
    swtpm_chardev_main Env.sample
        ([⟨'d', ""⟩, ⟨'c', "/dev/tpm0"⟩] ++ ⟨'h', ""⟩ :: [⟨'?', ""⟩, ⟨'f', "x"⟩]) =
      { status := .exited EXIT_SUCCESS
        out := [.open_ "/dev/tpm0"] ++ usage .stdout
        notify_fd := (-1, -1) } ∧
    '?' ∉ recognized_options ∧
    swtpm_chardev_main Env.sample
        ([⟨'d', ""⟩, ⟨'c', "/dev/tpm0"⟩] ++ ⟨'?', ""⟩ :: ([⟨'k', "file=k"⟩] ++ ⟨'h', ""⟩ :: [])) =
      { status := .exited EXIT_FAILURE
        out := [.open_ "/dev/tpm0"] ++ usage .stderr
        notify_fd := (-1, -1) } :=
  ⟨by rfl,
    (help_exits_with_success Env.sample [⟨'d', ""⟩, ⟨'c', "/dev/tpm0"⟩] []
      [⟨'?', ""⟩, ⟨'f', "x"⟩] "" _ _ (by rfl)).1,
    by decide,
    (help_exits_with_success Env.sample [⟨'d', ""⟩, ⟨'c', "/dev/tpm0"⟩] [⟨'k', "file=k"⟩]
      [] "" _ _ (by rfl)).2.1 ⟨'?', ""⟩ (by decide)⟩

/-- C3, as stated, fails: a plus sign and leading white space are taken by `strtoul`, so
`+7` and ` 7`, neither of them a sequence of digits only, reach `fstat` with
`mlp.fd = 7`. -/
theorem signed_or_padded_fd_text_reaches_fstat :
    (swtpm_chardev_main Env.sample [⟨'f', "+7"⟩]).out.head? = some (.fstat 7) ∧
    (swtpm_chardev_main Env.sample [⟨'f', " 7"⟩]).out.head? = some (.fstat 7) ∧
    "+7".data.all isdigit = false ∧ " 7".data.all isdigit = false := by
  refine ⟨by rfl, by rfl, by decide, by decide⟩

/-- C3, amended: let `s` be the text of the first transport option `-f`.  If `s` is
optional leading white space, an optional `+` and one or more decimal digits with nothing
behind them, with a value `n` that fits a non-negative `int`, the run calls `fstat` with
`mlp.fd = n`.  Apart from the texts that slip through the check of line 192
(`slip_fd_text`: the empty text, a minus sign whose negated value fits `unsigned int`, a
value between `INT_MAX + 1` and `UINT_MAX`), about which nothing is stated here, `fstat`
is called with `mlp.fd = n` only for such a text of value `n`, and every other text ends
the process with `exit(1)` after the parse error report, `fstat` not being called. -/
theorem plain_fd_text_reaches_fstat (env : Env) (before after : List GetoptResult)
    (s : String) (l : Locals) (out : List Event)
    (hbefore : optionLoop env Locals.init before = .next l out) (hfirst : l.mlp.fd < 0) :
    (∀ n, plain_fd_text s.data n →
      ∃ t, (swtpm_chardev_main env (before ++ ⟨'f', s⟩ :: after)).out =
        out ++ .fstat n :: t) ∧
    (¬ slip_fd_text s.data →
      ∀ n, (∃ t, (swtpm_chardev_main env (before ++ ⟨'f', s⟩ :: after)).out =
          out ++ .fstat n :: t) → plain_fd_text s.data n) ∧
    (¬ slip_fd_text s.data → (¬ ∃ n, plain_fd_text s.data n) →
      swtpm_chardev_main env (before ++ ⟨'f', s⟩ :: after) =
        { status := .exited 1
          out := out ++ [.fprintf .stderr "Cannot parse character device file descriptor.\n"]
          notify_fd := (-1, -1) }) := by
  obtain ⟨hiff, hrej⟩ := fstat_reached_iff_passing env before after s l out hbefore hfirst
  refine ⟨?_, ?_, ?_⟩
  · intro n hn
    exact (hiff n).mpr (passing_of_plain _ _ _ hn)
  · intro hslip n hn
    exact plain_of_passing _ _ _ ((hiff n).mp hn) hslip
  · intro hslip hno
    apply hrej
    rintro ⟨n, hn⟩
    exact hno ⟨n, plain_of_passing _ _ _ hn hslip⟩

/-- C3, amended, at a concrete input: `-d -f " +17"` calls `fstat(17)`. -/
theorem plain_fd_text_reaches_fstat_witness :
    optionLoop Env.sample Locals.init [⟨'d', ""⟩] =
        .next { Locals.init with daemonize := true } [] ∧
    Locals.init.mlp.fd < 0 ∧
    plain_fd_text " +17".data 17 ∧
    ∃ t, (swtpm_chardev_main Env.sample ([⟨'d', ""⟩] ++ ⟨'f', " +17"⟩ :: [])).out =
      [] ++ .fstat 17 :: t :=
  ⟨by rfl, by decide,
    ⟨[' '], ['+'], ['1', '7'], by rfl, by decide, by decide, by decide, by decide,
      by decide, by decide⟩,
    (plain_fd_text_reaches_fstat Env.sample [⟨'d', ""⟩] [] " +17" _ _ (by rfl)
        (by decide)).1 17
      ⟨[' '], ['+'], ['1', '7'], by rfl, by decide, by decide, by decide, by decide,
        by decide, by decide⟩⟩

/-- C4: once the options read so far have selected a descriptor (`mlp.fd >= 0`), the
whole run (exit or return status, every call made with its arguments, among them the
`mainLoopParams` handed to `mainLoop`) is the same as the run on the argument vector
from which all later `-c` and `-f` options have been removed, whatever their arguments. -/
theorem later_transport_options_ignored (env : Env) (before after : List GetoptResult)
    (l : Locals) (out : List Event)
    (hbefore : optionLoop env Locals.init before = .next l out) (hfd : 0 ≤ l.mlp.fd) :
    swtpm_chardev_main env (before ++ after) =
      swtpm_chardev_main env (before ++ after.filter (fun g => !is_transport_option g)) := by
  unfold swtpm_chardev_main
  rw [optionLoop_append_next env before _ _ _ _ hbefore,
    optionLoop_append_next env before _ _ _ _ hbefore,
    optionLoop_drop_transport env after l hfd]

/-- C4 at a concrete input: after `-c /dev/tpm0`, the options `-f x`, `-c /dev/nonexistent`
and `-f 4` (a regular file) change nothing. -/
theorem later_transport_options_ignored_witness :
    optionLoop Env.sample Locals.init [⟨'c', "/dev/tpm0"⟩] =
        .next { Locals.init with mlp := { fd := 3, flags := 0, cc := none } }
          [.open_ "/dev/tpm0"] ∧
    (0 : Int) ≤ 3 ∧
    swtpm_chardev_main Env.sample
        ([⟨'c', "/dev/tpm0"⟩] ++ [⟨'f', "x"⟩, ⟨'d', ""⟩, ⟨'c', "/dev/nonexistent"⟩, ⟨'f', "4"⟩]) =
      swtpm_chardev_main Env.sample ([⟨'c', "/dev/tpm0"⟩] ++ [⟨'d', ""⟩]) :=
  ⟨by rfl, by decide,
    later_transport_options_ignored Env.sample [⟨'c', "/dev/tpm0"⟩]
      [⟨'f', "x"⟩, ⟨'d', ""⟩, ⟨'c', "/dev/nonexistent"⟩, ⟨'f', "4"⟩] _ _ (by rfl) (by decide)⟩

/-- C5: for the first transport option `-f` whose text passes the parse check as
descriptor `n` and for which `fstat` succeeds with mode `st_mode`: a regular file, a
directory, a block device or a symbolic link ends the process with `exit(1)` right after
the `fstat`; every other type, among them character device, socket and FIFO, is
accepted: the loop goes on with the remaining options from the state in which `mlp.fd`
is `n` (and the terminate flag is set). -/
theorem fd_file_type_check (env : Env) (before after : List GetoptResult) (s : String)
    (n : Int) (st_mode : Nat) (l : Locals) (out : List Event)
    (hbefore : optionLoop env Locals.init before = .next l out) (hfirst : l.mlp.fd < 0)
    (hparse : fd_parses env.strtoul_einval s n) (hstat : env.fstat n = some st_mode) :
    ((S_ISREG st_mode = true ∨ S_ISDIR st_mode = true ∨ S_ISBLK st_mode = true ∨
        S_ISLNK st_mode = true) →
      swtpm_chardev_main env (before ++ ⟨'f', s⟩ :: after) =
        { status := .exited 1
          out := out ++ [.fstat n,
            .fprintf .stderr "Given file descriptor type is not supported.\n"]
          notify_fd := (-1, -1) }) ∧
    (¬ (S_ISREG st_mode = true ∨ S_ISDIR st_mode = true ∨ S_ISBLK st_mode = true ∨
        S_ISLNK st_mode = true) →
      optionLoop env Locals.init (before ++ ⟨'f', s⟩ :: after) =
        (optionLoop env
          { l with mlp := { l.mlp with fd := n,
                                       flags := l.mlp.flags ||| env.MAIN_LOOP_FLAG_TERMINATE } }
          after).after (out ++ [.fstat n])) ∧
    ((S_ISCHR st_mode = true ∨ S_ISSOCK st_mode = true ∨ S_ISFIFO st_mode = true) →
      ¬ (S_ISREG st_mode = true ∨ S_ISDIR st_mode = true ∨ S_ISBLK st_mode = true ∨
        S_ISLNK st_mode = true)) := by
  have happ := optionLoop_append_next env before (⟨'f', s⟩ :: after) _ _ _ hbefore
  have hbody := loopBody_f_parsed env l s n hfirst hparse
  rw [hstat] at hbody
  simp only at hbody
  refine ⟨?_, ?_, ?_⟩
  · intro hbad
    have hw : wrong_file_type st_mode = true := by
      simp only [wrong_file_type, Bool.or_eq_true]
      tauto
    rw [if_pos hw] at hbody
    simp [swtpm_chardev_main, happ, optionLoop_cons, hbody, Step.after]
  · intro hgood
    have hw : ¬ wrong_file_type st_mode = true := by
      simp only [wrong_file_type, Bool.or_eq_true]
      tauto
    rw [if_neg hw] at hbody
    rw [happ, optionLoop_cons, hbody]
    simp only [Step.after_after]
  · simp only [S_ISCHR, S_ISSOCK, S_ISFIFO, S_ISREG, S_ISDIR, S_ISBLK, S_ISLNK, beq_iff_eq]
    rintro (h | h | h) <;> rw [h] <;> decide

/-- C5 at a concrete input: `-d -f 7 -r tss` where descriptor 7 is a character device. -/
theorem fd_file_type_check_witness :
    optionLoop Env.sample Locals.init [⟨'d', ""⟩] =
        .next { Locals.init with daemonize := true } [] ∧
    Locals.init.mlp.fd < 0 ∧
    fd_parses false "7" 7 ∧
    Env.sample.fstat 7 = some 0o020600 ∧
    S_ISCHR 0o020600 = true ∧
    optionLoop Env.sample Locals.init ([⟨'d', ""⟩] ++ ⟨'f', "7"⟩ :: [⟨'r', "tss"⟩]) =
      (optionLoop Env.sample
        { Locals.init with daemonize := true, mlp := { fd := 7, flags := 1, cc := none } }
        [⟨'r', "tss"⟩]).after ([] ++ [.fstat 7]) :=
  ⟨by rfl, by decide, by decide, by rfl, by decide,
    (fd_file_type_check Env.sample [⟨'d', ""⟩] [⟨'r', "tss"⟩] "7" 7 0o020600 _ _
      (by rfl) (by decide) (by decide) (by rfl)).2.1 (by decide)⟩

/-- C6: in every run in which `pidfile_write` was called and succeeded, the calls of the
run end with the teardown sequence, each call once: `TPMLIB_Terminate` exactly when
`tpmlib_start` succeeded, then `pidfile_remove`, `close(notify_fd[0])`,
`close(notify_fd[1])`; no teardown call is made before it, the function returns (it does
not exit), and both entries of `notify_fd` are -1 afterwards. -/
theorem teardown_sequence (env : Env) (argv : List GetoptResult)
    (hcalled : Event.pidfile_write env.getpid ∈ (swtpm_chardev_main env argv).out)
    (hok : ¬ env.pidfile_write env.getpid < 0) :
    (∃ pre, (swtpm_chardev_main env argv).out = pre ++ teardown_calls env ∧
      ∀ e ∈ pre, e.is_teardown_call = false) ∧
    (swtpm_chardev_main env argv).notify_fd = (-1, -1) ∧
    ∃ status, (swtpm_chardev_main env argv).status = .returned status := by
  obtain ⟨l, o, hloop, hs, ho⟩ :=
    startup_succeeds_of_mem env argv _ hcalled (Or.inr ⟨rfl, hok⟩)
  rw [main_of_startup_succeeds env argv l o hloop hs]
  have hpre : ∀ e ∈ o ++ startup_calls env l, e.is_teardown_call = false := by
    intro e he
    rcases List.mem_append.mp he with he | he
    · exact not_teardown_of_option_call e (ho e he)
    · exact not_teardown_of_early_call e (startup_calls_early env l e he)
  by_cases ht : env.tpmlib_start ≠ 0
  · refine ⟨⟨(o ++ startup_calls env l) ++ [.tpmlib_start callbacks], ?_, ?_⟩, ?_, ?_⟩
    · simp [run_tpm, ht, Run.after, error_no_tpm, teardown_calls, notify_fd_at_teardown]
    · intro e he
      rcases List.mem_append.mp he with he | he
      · exact hpre e he
      · simp only [List.mem_singleton] at he
        rw [he]; rfl
    · simp [run_tpm, ht, Run.after, error_no_tpm]
    · simp [run_tpm, ht, Run.after, error_no_tpm]
  · have ht0 : env.tpmlib_start = 0 := not_not.mp ht
    by_cases hsig : env.install_sighandlers.1 < 0
    · refine ⟨⟨(o ++ startup_calls env l) ++ [.tpmlib_start callbacks, .install_sighandlers],
        ?_, ?_⟩, ?_, ?_⟩
      · simp [run_tpm, ht0, hsig, Run.after, error_no_sighandlers, error_no_tpm,
          teardown_calls, notify_fd_at_teardown]
      · intro e he
        rcases List.mem_append.mp he with he | he
        · exact hpre e he
        · simp only [List.mem_cons, List.mem_singleton, List.not_mem_nil, or_false] at he
          rcases he with he | he <;> rw [he] <;> rfl
      · simp [run_tpm, ht0, hsig, Run.after, error_no_sighandlers, error_no_tpm]
      · simp [run_tpm, ht0, hsig, Run.after, error_no_sighandlers, error_no_tpm]
    · refine ⟨⟨(o ++ startup_calls env l) ++ [.tpmlib_start callbacks, .install_sighandlers,
          .mainLoop (final_mlp env l) env.install_sighandlers.2.1 callbacks], ?_, ?_⟩, ?_, ?_⟩
      · simp [run_tpm, ht0, hsig, Run.after, error_no_sighandlers, error_no_tpm,
          teardown_calls, notify_fd_at_teardown]
      · intro e he
        rcases List.mem_append.mp he with he | he
        · exact hpre e he
        · simp only [List.mem_cons, List.mem_singleton, List.not_mem_nil, or_false] at he
          rcases he with he | he | he <;> rw [he] <;> rfl
      · simp [run_tpm, ht0, hsig, Run.after, error_no_sighandlers, error_no_tpm]
      · simp [run_tpm, ht0, hsig, Run.after, error_no_sighandlers, error_no_tpm]

/-- C6 at a concrete input: `-c /dev/tpm0` with a `tpmlib_start` that fails with 9. -/
theorem teardown_sequence_witness :
    Event.pidfile_write 4242 ∈
      (swtpm_chardev_main { Env.sample with tpmlib_start := 9 } [⟨'c', "/dev/tpm0"⟩]).out ∧
    ¬ Env.sample.pidfile_write 4242 < 0 ∧
    teardown_calls { Env.sample with tpmlib_start := 9 } =
      [.pidfile_remove, .close (-1), .close (-1)] ∧
    (∃ pre, (swtpm_chardev_main { Env.sample with tpmlib_start := 9 }
        [⟨'c', "/dev/tpm0"⟩]).out =
          pre ++ teardown_calls { Env.sample with tpmlib_start := 9 } ∧
      ∀ e ∈ pre, e.is_teardown_call = false) ∧
    (swtpm_chardev_main { Env.sample with tpmlib_start := 9 }
      [⟨'c', "/dev/tpm0"⟩]).notify_fd = (-1, -1) ∧
    ∃ status, (swtpm_chardev_main { Env.sample with tpmlib_start := 9 }
      [⟨'c', "/dev/tpm0"⟩]).status = .returned status :=
  ⟨by decide, by decide, by rfl,
    teardown_sequence { Env.sample with tpmlib_start := 9 } [⟨'c', "/dev/tpm0"⟩]
      (by decide) (by decide)⟩

/-- C8, as stated, fails: after a failed `write` the handler calls `logprintf`. -/
theorem failed_write_is_logged :
    (sigterm_handler (-1) { notify_fd := (5, 6), mainloop_terminate := false }).2 =
      [.write 6 "T" 1,
       .logprintf STDERR_FILENO "Error: sigterm notification failed: %s\n"] := by
  rfl

/-- C8, amended: every run of `sigterm_handler`, whatever the flag was and whatever
`write` returns, makes one `write` of the one byte `T` to `notify_fd[1]`, sets
`mainloop_terminate` and leaves `notify_fd` alone; when the `write` returned a negative
value it also makes one `logprintf` call to `STDERR_FILENO`, and nothing else happens.
So `N >= 1` deliveries make exactly `N` one-byte writes (at most `N` sentinel bytes), one
report per failed write, and leave the flag true. -/
theorem sigterm_handler_effects (w : Int) (ws : List Int) (g : Globals) :
    sigterm_handler w g =
      ({ notify_fd := g.notify_fd, mainloop_terminate := true },
       Event.write g.notify_fd.2 "T" 1 :: (if w < 0 then [sigterm_report] else [])) ∧
    (deliver_signals (w :: ws) g).1 = { notify_fd := g.notify_fd, mainloop_terminate := true } ∧
    (deliver_signals (w :: ws) g).2.filter Event.is_write =
      List.replicate (ws.length + 1) (.write g.notify_fd.2 "T" 1) ∧
    (deliver_signals (w :: ws) g).2.filter (fun e => !e.is_write) =
      List.replicate ((w :: ws).filter (fun w => decide (w < 0))).length sigterm_report := by
  refine ⟨?_, ?_, ?_, ?_⟩
  · by_cases hw : w < 0 <;> simp [sigterm_handler, hw, sigterm_report]
  · rw [deliver_signals_state]; simp
  · exact (deliver_signals_out (w :: ws) g).1
  · exact (deliver_signals_out (w :: ws) g).2

/-- C9: for every run that gets through the option loop with a transport selected, the
start-up calls made are, in order, the calls of the fixed sequence (owner change only with
`-r`, the five handlers, `daemon` only with `-d`, `pidfile_write`, `tpmlib_start`,
`install_sighandlers`, `mainLoop`) up to and including the first one that fails: an
initial segment of that sequence.  The option loop itself makes no start-up call, and the
strings handed to the owner change and to the handlers are those of the last `-r`,
`--log`, `--key`, `--pid`, `--tpmstate` and `--ctrl` on the command line (`NULL` if the
option is absent); `daemon` is in the sequence exactly when `-d` was given. -/
theorem startup_call_order (env : Env) (argv : List GetoptResult) (l : Locals)
    (o : List Event) (hloop : optionLoop env Locals.init argv = .next l o)
    (hfd : 0 ≤ l.mlp.fd) :
    (swtpm_chardev_main env argv).out.filter Event.is_startup_call =
      through_first_failure (startup_plan env l) ∧
    through_first_failure (startup_plan env l) <+: (startup_plan env l).map Prod.fst ∧
    o.filter Event.is_startup_call = [] ∧
    l.runas = last_optarg 'r' argv ∧ l.logdata = last_optarg 'l' argv ∧
    l.keydata = last_optarg 'k' argv ∧ l.piddata = last_optarg 'P' argv ∧
    l.tpmstatedata = last_optarg 's' argv ∧ l.ctrlchdata = last_optarg 'C' argv ∧
    l.daemonize = argv.any (fun g => decide (g.opt = 'd')) := by
  have ho : o.filter Event.is_startup_call = [] := by
    rw [List.filter_eq_nil_iff]
    intro e he
    have hopt := optionLoop_out_option_calls env argv Locals.init
    rw [hloop] at hopt
    simp [not_startup_of_option_call e (hopt e he)]
  obtain ⟨b1, b2, b3, b4, b5, b6, b7⟩ := optionLoop_stored env argv Locals.init l o hloop
  refine ⟨?_, through_first_failure_is_initial _, ho, b1, b2, b3, b4, b5, b6, ?_⟩
  · rw [main_of_optionLoop_next env argv l o hloop]
    simp only [Run.after, List.filter_append, ho, List.nil_append]
    exact after_options_startup_calls env l hfd
  · rw [b7]; simp [Locals.init]

/-- C9 at a concrete input: `-r tss -c /dev/tpm0 --pid file=/tmp/t.pid -d` with a
`handle_pid_options` that fails: the calls stop at that handler. -/
theorem startup_call_order_witness :
    optionLoop { Env.sample with handle_pid_options := fun _ => -1 } Locals.init
        [⟨'r', "tss"⟩, ⟨'c', "/dev/tpm0"⟩, ⟨'P', "file=/tmp/t.pid"⟩, ⟨'d', ""⟩] =
      .next { Locals.init with daemonize := true, mlp := { fd := 3, flags := 0, cc := none },
                               piddata := some "file=/tmp/t.pid", runas := some "tss" }
        [.open_ "/dev/tpm0"] ∧
    (swtpm_chardev_main { Env.sample with handle_pid_options := fun _ => -1 }
        [⟨'r', "tss"⟩, ⟨'c', "/dev/tpm0"⟩, ⟨'P', "file=/tmp/t.pid"⟩, ⟨'d', ""⟩]).out.filter
        Event.is_startup_call =
      through_first_failure
        (startup_plan { Env.sample with handle_pid_options := fun _ => -1 }
          { Locals.init with daemonize := true, mlp := { fd := 3, flags := 0, cc := none },
                             piddata := some "file=/tmp/t.pid", runas := some "tss" }) ∧
    through_first_failure
        (startup_plan { Env.sample with handle_pid_options := fun _ => -1 }
          { Locals.init with daemonize := true, mlp := { fd := 3, flags := 0, cc := none },
                             piddata := some "file=/tmp/t.pid", runas := some "tss" }) =
      [.change_process_owner "tss", .handle_log_options none, .handle_key_options none,
       .handle_pid_options (some "file=/tmp/t.pid")] :=
  ⟨by rfl,
    (startup_call_order { Env.sample with handle_pid_options := fun _ => -1 }
      [⟨'r', "tss"⟩, ⟨'c', "/dev/tpm0"⟩, ⟨'P', "file=/tmp/t.pid"⟩, ⟨'d', ""⟩]
      { Locals.init with daemonize := true, mlp := { fd := 3, flags := 0, cc := none },
                         piddata := some "file=/tmp/t.pid", runas := some "tss" }
      [.open_ "/dev/tpm0"] (by rfl) (by decide)).1,
    by rfl⟩

/-- C10: an argument vector made only of the value-storing options (no `-c`, `-f`, `-h`,
nothing unrecognized) makes `swtpm_chardev_main` return `EXIT_FAILURE`, and the only call
of the whole run is the `logprintf` that reports the missing transport: no privilege
change, no handler, no `daemon`, no PID file, no TPM start, no signal handler, no main
loop. -/
theorem missing_transport_returns_failure (env : Env) (argv : List GetoptResult)
    (h : ∀ g ∈ argv, g.opt ∈ plain_options) :
    swtpm_chardev_main env argv =
      { status := .returned EXIT_FAILURE
        out := [.logprintf STDERR_FILENO "Error: Missing character device or file descriptor\n"]
        notify_fd := (-1, -1) } := by
  obtain ⟨l1, h1, hm1⟩ := optionLoop_plain env argv h Locals.init
  have hfd : l1.mlp.fd < 0 := by rw [hm1]; decide
  simp [swtpm_chardev_main, h1, after_options, hfd, return_failure, Run.after]

/-- C10 at a concrete input: `-d --pid file=/tmp/t.pid -r tss`. -/
theorem missing_transport_returns_failure_witness :
    (∀ g ∈ [(⟨'d', ""⟩ : GetoptResult), ⟨'P', "file=/tmp/t.pid"⟩, ⟨'r', "tss"⟩],
        g.opt ∈ plain_options) ∧
    swtpm_chardev_main Env.sample [⟨'d', ""⟩, ⟨'P', "file=/tmp/t.pid"⟩, ⟨'r', "tss"⟩] =
      { status := .returned EXIT_FAILURE
        out := [.logprintf STDERR_FILENO "Error: Missing character device or file descriptor\n"]
        notify_fd := (-1, -1) } :=
  ⟨by decide, missing_transport_returns_failure Env.sample _ (by decide)⟩

/-- The sibling path of C1: in every run in which `tpmlib_start` is called and returns a
non-zero result, `swtpm_chardev_main` returns `EXIT_FAILURE`. -/
theorem tpmlib_start_failure_returns_failure (env : Env) (argv : List GetoptResult)
    (hcalled : Event.tpmlib_start callbacks ∈ (swtpm_chardev_main env argv).out)
    (hfail : env.tpmlib_start ≠ 0) :
    (swtpm_chardev_main env argv).status = .returned EXIT_FAILURE := by
  obtain ⟨l, o, hloop, hs, -⟩ :=
    startup_succeeds_of_mem env argv _ hcalled (Or.inl ⟨rfl, rfl⟩)
  rw [main_of_startup_succeeds env argv l o hloop hs]
  simp [run_tpm, hfail, Run.after, error_no_tpm]

/-- The sibling path of C1 at a concrete input: `-c /dev/tpm0` with a `tpmlib_start` that
returns 9. -/
theorem tpmlib_start_failure_returns_failure_witness :
    Event.tpmlib_start callbacks ∈
      (swtpm_chardev_main { Env.sample with tpmlib_start := 9 } [⟨'c', "/dev/tpm0"⟩]).out ∧
    (9 : Nat) ≠ 0 ∧
    (swtpm_chardev_main { Env.sample with tpmlib_start := 9 }
      [⟨'c', "/dev/tpm0"⟩]).status = .returned EXIT_FAILURE :=
  ⟨by decide, by decide,
    tpmlib_start_failure_returns_failure { Env.sample with tpmlib_start := 9 }
      [⟨'c', "/dev/tpm0"⟩] (by decide) (by decide)⟩

/-- Texts that slip through the check of line 192 (left out of C3): with a C library
that leaves `errno` alone when nothing is converted, `-f ""` runs the main loop on
descriptor 0; `-f -18446744073709551609` runs it on descriptor 7; and `-f 4294967295`
calls `fstat` with `mlp.fd = -1`. -/
theorem fd_text_slips_through :
    Event.mainLoop { fd := 0, flags := 1, cc := none } 5 callbacks ∈
      (swtpm_chardev_main Env.sample [⟨'f', ""⟩]).out ∧
    Event.mainLoop { fd := 7, flags := 1, cc := none } 5 callbacks ∈
      (swtpm_chardev_main Env.sample [⟨'f', "-18446744073709551609"⟩]).out ∧
    (swtpm_chardev_main Env.sample [⟨'f', "4294967295"⟩]).out.head? = some (.fstat (-1)) ∧
    slip_fd_text "".data ∧ slip_fd_text "-18446744073709551609".data ∧
    slip_fd_text "4294967295".data := by
  refine ⟨by decide, by decide, by rfl, Or.inl rfl, ?_, ?_⟩
  · exact Or.inr (Or.inl ⟨[], "18446744073709551609".data, by rfl, by decide, by decide,
      by decide, by decide, by decide⟩)
  · exact Or.inr (Or.inr ⟨[], [], "4294967295".data, by rfl, by decide, by decide,
      by decide, by decide, by decide, by decide⟩)

end Swtpm
